import Mathlib

/-! # posix-ipc: non-blocking wrappers over POSIX IPC primitives

A shallow embedding of the four header-only transports of the repository

* `mqueue/non_blocking_mqueue.hpp`   (`NonBlockingMQ`)
* `pipe/non_blocking_pipe.hpp`       (`NonBlockingPipe`)
* `shm/non_blocking_shm.hpp`         (`NonBlockingSHM`)
* `socket/non_blocking_unix_socket.hpp` (`NonBlockingUnixSocket`)

Conventions.

* A `std::string` is a `List Char`; `char const*` data handed to a system call is
  the list of bytes transferred.
* Every member function becomes a function from the handle, its arguments and the
  state of the operating-system objects to its result and the new state.  An
  output parameter `T& data` is passed in (its prior value) and returned.
* `std::cerr` / `perror` output is collected as a list of lines, so that the branch
  taken by a failing call is observable.
* The templates `to_string<T>` / `from_string<T>` are instantiated by hand at
  `T = int` and `T = std::string`; `read` and `write` take the instance they use.
* The system calls (`shm_open`, `mq_send`, `write`, `sendto`, ...) are not part of the
  repository.  They are modelled after their POSIX description for the flags the
  wrappers pass (all descriptors are non-blocking), over an explicit object store:
  a table from names to object identifiers, and the objects themselves.  A
  descriptor is represented by the identifier of the object it refers to.
* Creating and opening an object succeeds in this model (every name is acceptable,
  no limit on the number of objects).  The tests of the constructors on a failed
  call are kept as they are written; where the source calls `exit(EXIT_FAILURE)` the
  constructor yields `none`.
* `std::string(buffer, n)` with `n` above `max_size()` throws `std::length_error`, as
  the standard library implementations do; a `read` left by this exception is the
  outcome `ReadOutcome.threw`.
-/

namespace PosixIpc

/-! ## C++ strings, integers and stream formatting -/

/-- The type `std::string`: a finite sequence of `char`. -/
abbrev CxxString := List Char

/-- The terminating character of a C string. -/
def NUL : Char := Char.ofNat 0

/-- Largest value of a 32-bit `int`. -/
def INT_MAX : Int := 2147483647

/-- Smallest value of a 32-bit `int`. -/
def INT_MIN : Int := -2147483648

/-- Classification `isspace` in the "C" locale: space, `\t`, `\n`, `\v`, `\f`, `\r`. -/
def isspace (c : Char) : Bool :=
  c.toNat == 32 || (9 ≤ c.toNat && c.toNat ≤ 13)

/-- Classification `isdigit`: the characters `0` to `9`. -/
def isdigit (c : Char) : Bool :=
  48 ≤ c.toNat && c.toNat ≤ 57

/-- The character of a decimal digit. -/
def digitChar (d : Nat) : Char := Char.ofNat (48 + d)

/-- The value of a decimal digit character. -/
def digitVal (c : Char) : Nat := c.toNat - 48

/-- Decimal digits of `n`, most significant first, pushed in front of `acc`. -/
def putDigits : Nat → Nat → List Char → List Char
  | 0, _, acc => acc
  | fuel + 1, n, acc =>
    if n < 10 then digitChar n :: acc
    else putDigits fuel (n / 10) (digitChar (n % 10) :: acc)

/-- Decimal text of a natural number (`0` prints as one digit). -/
def putNat (n : Nat) : List Char := putDigits (n + 1) n []

/-- Stream insertion `ss << value` for `int` with a default-constructed stream:
base 10, no padding, a leading `-` for negative values. -/
def ostreamPutInt (value : Int) : CxxString :=
  if value < 0 then '-' :: putNat value.natAbs else putNat value.natAbs

/-- Stream insertion `ss << value` for `std::string` with a default-constructed
stream (width 0): the characters of the string, all of them. -/
def ostreamPutString (value : CxxString) : CxxString := value

/-- Value of a run of decimal digits. -/
def digitsValue (digits : List Char) : Nat :=
  digits.foldl (fun acc c => acc * 10 + digitVal c) 0

/-- Stream extraction `std::istringstream(str) >> value` for `int`.
Leading white space is skipped.  When nothing is left the extraction does not
start and `value` keeps what it held.  Otherwise an optional sign and the longest
run of digits are read: no digit stores `0`, an out-of-range number stores the
nearest bound. -/
def istreamGetInt (str : CxxString) (value : Int) : Int :=
  match str.dropWhile isspace with
  | [] => value
  | c :: rest =>
    let body := if c = '-' ∨ c = '+' then rest else c :: rest
    let digits := body.takeWhile isdigit
    if digits = [] then 0
    else
      let magnitude : Int := digitsValue digits
      let v : Int := if c = '-' then -magnitude else magnitude
      if v > INT_MAX then INT_MAX else if v < INT_MIN then INT_MIN else v

/-- Stream extraction `std::istringstream(str) >> value` for `std::string`.
Leading white space is skipped.  When nothing is left the extraction does not
start and `value` keeps what it held.  Otherwise `value` receives the characters
up to the next white space. -/
def istreamGetString (str : CxxString) (value : CxxString) : CxxString :=
  match str.dropWhile isspace with
  | [] => value
  | c :: rest => (c :: rest).takeWhile (fun x => !isspace x)

/-- The C string of a `std::string`: its characters and the terminator
(`c_str()` read over `size() + 1` bytes). -/
def c_str (s : CxxString) : List Char := s ++ [NUL]

/-- Construction `std::string(p)` from a C string: the bytes before the first
terminator. -/
def stringFromCStr (bytes : List Char) : CxxString :=
  bytes.takeWhile (fun c => c != NUL)

/-- Exceptions a member function can leave with. -/
inductive CxxException where
  | length_error
  deriving DecidableEq, Repr

/-- Largest size a `std::string` can have (`max_size()`); below `2 ^ 64 - 1`. -/
def string_max_size : Nat := 2 ^ 63 - 1

/-- Conversion of a `ssize_t` to `size_t` (64 bits): reduction modulo `2 ^ 64`. -/
def toSizeT (n : Int) : Nat := (n % (2 ^ 64 : Int)).toNat

/-- Construction `std::string(buffer, n)`: the first `n` bytes of the buffer;
a length above `max_size()` throws `std::length_error`. -/
def stringFromBuffer (buffer : List Char) (n : Nat) : Except CxxException CxxString :=
  if n > string_max_size then Except.error CxxException.length_error
  else Except.ok (buffer.take n)

/-- Error numbers set by the modelled system calls. -/
inductive Errno where
  | EAGAIN
  | EBADF
  | EMSGSIZE
  | ENOENT
  | ECONNREFUSED
  deriving DecidableEq, Repr

/-- Name of an error number; it stands for the description `perror` prints. -/
def Errno.name : Errno → String
  | Errno.EAGAIN => "EAGAIN"
  | Errno.EBADF => "EBADF"
  | Errno.EMSGSIZE => "EMSGSIZE"
  | Errno.ENOENT => "ENOENT"
  | Errno.ECONNREFUSED => "ECONNREFUSED"

/-- The line `perror(tag)` prints for the current `errno`: the tag, a colon and the
error. -/
def perror (tag : String) (e : Errno) : String := tag ++ ": " ++ e.name

/-- Update of an object store at one identifier. -/
def setObj {α : Type} (store : Nat → α) (id : Nat) (v : α) : Nat → α :=
  fun i => if i = id then v else store i

/-- Removal of a name from a name table (`unlink`, `shm_unlink`, `mq_unlink`). -/
def unlinkName (names : List (String × Nat)) (name : String) : List (String × Nat) :=
  names.filter (fun e => e.1 != name)

/-- Result of a `write` member: the returned flag, the lines printed on `std::cerr`,
and the system after the call. -/
structure WriteResult (σ : Type) where
  status : Bool
  stderr : List String
  sys : σ

/-- Outcome of a `read` member.  Either it returns a flag, with `data` the value of the
output parameter after the call, or it is left by an exception, `data` then being
what the output parameter held when the exception was thrown. -/
inductive ReadOutcome (σ T : Type) where
  | returned (status : Bool) (data : T) (stderr : List String) (sys : σ)
  | threw (e : CxxException) (data : T) (stderr : List String) (sys : σ)

/-- The flag a `read` returned, `none` when it was left by an exception. -/
def ReadOutcome.status? {σ T : Type} : ReadOutcome σ T → Option Bool
  | ReadOutcome.returned status _ _ _ => some status
  | ReadOutcome.threw _ _ _ _ => none

/-- The value the output parameter of a `read` holds after the call. -/
def ReadOutcome.data {σ T : Type} : ReadOutcome σ T → T
  | ReadOutcome.returned _ data _ _ => data
  | ReadOutcome.threw _ data _ _ => data

/-! ## Shared memory: `shm/non_blocking_shm.hpp` -/

namespace Shm

/-- The macro `SHM_SIZE`. -/
def SHM_SIZE : Nat := 4096

/-- Shared-memory objects of the system: the names bound to objects, the bytes of
each object, and the next unused identifier. -/
structure ShmSystem where
  names : List (String × Nat)
  objects : Nat → List Char
  next : Nat

/-- The system with no shared-memory object. -/
def ShmSystem.empty : ShmSystem :=
  { names := [], objects := fun _ => [], next := 0 }

/-- Data members of `NonBlockingSHM`.  `shmFd_` is `-1` or the object the descriptor
refers to; `shmPtr_` is `none` for `MAP_FAILED` or the object the mapping shares. -/
structure NonBlockingSHM where
  shmName_ : String
  shmFd_ : Int
  shmPtr_ : Option Nat
  deriving DecidableEq

/-- Call `shm_open(name, O_CREAT | O_RDWR, 0666)`: the object bound to the name, or
a new object of size 0 bound to it. -/
def shm_open (name : String) (sys : ShmSystem) : Int × ShmSystem :=
  match sys.names.lookup name with
  | some id => ((id : Int), sys)
  | none =>
    ((sys.next : Int),
      { names := (name, sys.next) :: sys.names,
        objects := setObj sys.objects sys.next [],
        next := sys.next + 1 })

/-- Call `ftruncate(fd, length)`: the object is cut or extended with zero bytes. -/
def ftruncate (fd : Int) (length : Nat) (sys : ShmSystem) : ShmSystem :=
  let old := sys.objects fd.toNat
  let resized := old.take length ++ List.replicate (length - old.length) NUL
  { sys with objects := setObj sys.objects fd.toNat resized }

/-- Member `shmSize`: `st_size` of the object behind the descriptor. -/
def NonBlockingSHM.shmSize (fd : Int) (sys : ShmSystem) : Int :=
  ((sys.objects fd.toNat).length : Int)

/-- Call `shm_unlink(name)`: the name is removed; the object lives on for the
descriptors and mappings that still refer to it. -/
def shm_unlink (name : String) (sys : ShmSystem) : ShmSystem :=
  { sys with names := unlinkName sys.names name }

/-- Constructor `NonBlockingSHM(name)`.  The result is `none` where the source calls
`exit(EXIT_FAILURE)`. -/
def NonBlockingSHM.new (name : String) (sys : ShmSystem) : Option (NonBlockingSHM × ShmSystem) :=
  let (fd, sys1) := shm_open name sys
  if fd = -1 then none
  else
    let sys2 :=
      if NonBlockingSHM.shmSize fd sys1 ≠ (SHM_SIZE : Int) then ftruncate fd SHM_SIZE sys1
      else sys1
    some ({ shmName_ := name, shmFd_ := fd, shmPtr_ := some fd.toNat }, sys2)

/-- Destructor `~NonBlockingSHM()`: unmapping and closing leave the objects as they
are; the name is unlinked unconditionally. -/
def NonBlockingSHM.destroy (self : NonBlockingSHM) (sys : ShmSystem) : ShmSystem :=
  shm_unlink self.shmName_ sys

/-- Member `isOpen`. -/
def NonBlockingSHM.isOpen (self : NonBlockingSHM) : Bool :=
  self.shmPtr_ != none && self.shmFd_ != -1

/-- Instance `to_string<int>`. -/
def NonBlockingSHM.to_string_int (value : Int) : CxxString := ostreamPutInt value

/-- Instance `to_string<std::string>`. -/
def NonBlockingSHM.to_string_string (value : CxxString) : CxxString := ostreamPutString value

/-- Instance `from_string<int>` (the overload for types other than `std::string`);
`value` is what the uninitialised local `T value;` happens to hold. -/
def NonBlockingSHM.from_string_int (value : Int) (str : CxxString) : Int :=
  istreamGetInt str value

/-- Instance `from_string<std::string>` (the overload for `std::string`): the string
as read, unmodified. -/
def NonBlockingSHM.from_string_string (str : CxxString) : CxxString := str

/-- Call `std::memset(p, c, n)` on the bytes of a region. -/
def memset (region : List Char) (c : Char) (n : Nat) : List Char :=
  List.replicate n c ++ region.drop n

/-- Call `std::memcpy(p, src, n)` on the bytes of a region. -/
def memcpy (region : List Char) (src : List Char) (n : Nat) : List Char :=
  src.take n ++ region.drop n

/-- Member `write<T>`, for the instance `to_string` of `to_string<T>`. -/
def NonBlockingSHM.write {T : Type} (self : NonBlockingSHM) (to_string : T → CxxString)
    (data : T) (sys : ShmSystem) : WriteResult ShmSystem :=
  if !self.isOpen then { status := false, stderr := [], sys := sys }
  else
    let message := to_string data
    if message.length + 1 > SHM_SIZE then
      { status := false, stderr := ["Message size exceeds shared memory size."], sys := sys }
    else
      match self.shmPtr_ with
      | none => { status := false, stderr := [], sys := sys }
      | some p =>
        let cleared := memset (sys.objects p) NUL SHM_SIZE
        let copied := memcpy cleared (c_str message) (message.length + 1)
        { status := true, stderr := [], sys := { sys with objects := setObj sys.objects p copied } }

/-- Member `read<T>`, for the instance `from_string` of `from_string<T>`; `data` is
the value the output parameter holds before the call. -/
def NonBlockingSHM.read {T : Type} (self : NonBlockingSHM) (from_string : CxxString → T)
    (sys : ShmSystem) (data : T) : ReadOutcome ShmSystem T :=
  if !self.isOpen then ReadOutcome.returned false data [] sys
  else
    match self.shmPtr_ with
    | none => ReadOutcome.returned false data [] sys
    | some p =>
      let message := stringFromCStr (sys.objects p)
      ReadOutcome.returned true (from_string message) [] sys

/-- The handle each of the two constructor calls of `main` in `test_shm.cpp` yields:
both refer to the one object bound to the name. -/
def test_shm_handle : NonBlockingSHM :=
  { shmName_ := "/test_shm", shmFd_ := 0, shmPtr_ := some 0 }

/-- The system of `main` in `test_shm.cpp` once the first constructor has created and
sized the object; the second constructor finds it and leaves it as it is. -/
def test_shm_system : ShmSystem :=
  ftruncate 0 SHM_SIZE (shm_open "/test_shm" ShmSystem.empty).2

end Shm


/-! ## Message queue: `mqueue/non_blocking_mqueue.hpp` -/

namespace Mqueue

/-- The macro `MAX_NUM_MSGS`. -/
def MAX_NUM_MSGS : Nat := 10

/-- The macro `MAX_MSG_SIZE_BYTES`. -/
def MAX_MSG_SIZE_BYTES : Nat := 4096

/-- The fields of `struct mq_attr` that `mq_open` uses. -/
structure MqAttr where
  mq_maxmsg : Nat
  mq_msgsize : Nat
  deriving DecidableEq

/-- A message queue: its attributes and the pending messages, oldest first.  Every
message is sent with priority 0, so the order of delivery is the order of arrival. -/
structure MessageQueue where
  attr : MqAttr
  msgs : List (List Char)
  deriving DecidableEq

/-- Message queues of the system: the names bound to queues, the queues that exist,
and the next unused identifier. -/
structure MqSystem where
  names : List (String × Nat)
  queues : Nat → Option MessageQueue
  next : Nat

/-- The system with no message queue. -/
def MqSystem.empty : MqSystem :=
  { names := [], queues := fun _ => none, next := 0 }

/-- Data members of `NonBlockingMQ`.  The descriptor `mq_` is `-1` or the queue it
refers to.  (The member functions of the source spell the descriptor `mq`; the only
descriptor the class declares is `mq_`.) -/
structure NonBlockingMQ where
  queueName_ : String
  mq_ : Int
  deriving DecidableEq

/-- Instance `to_string<int>`. -/
def to_string_int (value : Int) : CxxString := ostreamPutInt value

/-- Instance `to_string<std::string>`. -/
def to_string_string (value : CxxString) : CxxString := ostreamPutString value

/-- Instance `from_string<int>`; `value` is what the uninitialised local `T value;`
happens to hold. -/
def from_string_int (value : Int) (str : CxxString) : Int := istreamGetInt str value

/-- Instance `from_string<std::string>`: the one generic template, extraction with
`>>` into a default-constructed (empty) string. -/
def from_string_string (str : CxxString) : CxxString := istreamGetString str []

/-- Call `mq_unlink(name)`: the name is removed; the queue lives on for the
descriptors that still refer to it. -/
def mq_unlink (name : String) (sys : MqSystem) : MqSystem :=
  { sys with names := unlinkName sys.names name }

/-- Call `mq_open(name, O_CREAT | O_RDWR | O_NONBLOCK, 0644, &attr)`: the queue bound
to the name, or a new empty queue with the attributes given, bound to it. -/
def mq_open (name : String) (attr : MqAttr) (sys : MqSystem) : Int × MqSystem :=
  match sys.names.lookup name with
  | some id => ((id : Int), sys)
  | none =>
    ((sys.next : Int),
      { names := (name, sys.next) :: sys.names,
        queues := setObj sys.queues sys.next (some { attr := attr, msgs := [] }),
        next := sys.next + 1 })

/-- Call `mq_send(mqdes, msg, len, 0)` on a non-blocking descriptor, `msg` being
the `len` bytes sent: `EBADF` for an invalid descriptor, `EMSGSIZE` for a message
longer than `mq_msgsize`, `EAGAIN` for a full queue, else the message is queued. -/
def mq_send (mqdes : Int) (msg : List Char) (sys : MqSystem) : Except Errno MqSystem :=
  if mqdes < 0 then Except.error Errno.EBADF
  else
    match sys.queues mqdes.toNat with
    | none => Except.error Errno.EBADF
    | some q =>
      if msg.length > q.attr.mq_msgsize then Except.error Errno.EMSGSIZE
      else if q.msgs.length ≥ q.attr.mq_maxmsg then Except.error Errno.EAGAIN
      else
        Except.ok { sys with
          queues := setObj sys.queues mqdes.toNat (some { q with msgs := q.msgs ++ [msg] }) }

/-- Call `mq_receive(mqdes, buffer, len, nullptr)` on a non-blocking descriptor:
`EBADF` for an invalid descriptor, `EMSGSIZE` for a buffer shorter than `mq_msgsize`,
`EAGAIN` for an empty queue, else the oldest message is removed and returned. -/
def mq_receive (mqdes : Int) (len : Nat) (sys : MqSystem) :
    Except Errno (List Char × MqSystem) :=
  if mqdes < 0 then Except.error Errno.EBADF
  else
    match sys.queues mqdes.toNat with
    | none => Except.error Errno.EBADF
    | some q =>
      if len < q.attr.mq_msgsize then Except.error Errno.EMSGSIZE
      else
        match q.msgs with
        | [] => Except.error Errno.EAGAIN
        | m :: rest =>
          Except.ok (m, { sys with
            queues := setObj sys.queues mqdes.toNat (some { q with msgs := rest }) })

/-- Constructor `NonBlockingMQ(queueName)`.  The result is `none` where the source
calls `exit(EXIT_FAILURE)`. -/
def NonBlockingMQ.new (queueName : String) (sys : MqSystem) : Option (NonBlockingMQ × MqSystem) :=
  let sys1 := mq_unlink queueName sys
  let attr : MqAttr := { mq_maxmsg := MAX_NUM_MSGS, mq_msgsize := MAX_MSG_SIZE_BYTES }
  let (mq, sys2) := mq_open queueName attr sys1
  if mq = -1 then none
  else some ({ queueName_ := queueName, mq_ := mq }, sys2)

/-- Destructor `~NonBlockingMQ()`: the descriptor is closed, nothing is unlinked. -/
def NonBlockingMQ.destroy (_self : NonBlockingMQ) (sys : MqSystem) : MqSystem := sys

/-- Member `isOpen`. -/
def NonBlockingMQ.isOpen (self : NonBlockingMQ) : Bool := self.mq_ != -1

/-- Member `write<T>`, for the instance `to_string` of `to_string<T>`. -/
def NonBlockingMQ.write {T : Type} (self : NonBlockingMQ) (to_string : T → CxxString)
    (data : T) (sys : MqSystem) : WriteResult MqSystem :=
  let message := to_string data
  match mq_send self.mq_ (c_str message) sys with
  | Except.error e =>
    if e = Errno.EAGAIN then
      { status := false, stderr := ["Queue is full, message not sent."], sys := sys }
    else
      { status := false, stderr := [perror "mq_send" e], sys := sys }
  | Except.ok sys1 => { status := true, stderr := [], sys := sys1 }

/-- Locals of `read` after the call of `mq_receive` and the `if` on its result. -/
structure Received where
  status : Bool
  bytesRead : Int
  buffer : List Char
  stderr : List String
  sys : MqSystem

/-- First part of `read<T>`: the call of `mq_receive` into the local buffer and the
`if (bytesRead == -1)` that sets `status` and prints.  `buffer` is what the
uninitialised local array holds before the call. -/
def NonBlockingMQ.receive (self : NonBlockingMQ) (buffer : List Char) (sys : MqSystem) :
    Received :=
  match mq_receive self.mq_ MAX_MSG_SIZE_BYTES sys with
  | Except.error e =>
    { status := false, bytesRead := -1, buffer := buffer,
      stderr := [if e = Errno.EAGAIN then "Queue is empty, no message received."
                 else perror "mq_receive" e],
      sys := sys }
  | Except.ok (m, sys1) =>
    { status := true, bytesRead := (m.length : Int), buffer := m ++ buffer.drop m.length,
      stderr := [], sys := sys1 }

/-- Member `read<T>`, for the instance `from_string` of `from_string<T>`; `data` is the
value the output parameter holds before the call.  There is no return after a failed
`mq_receive`: in every case the message is built from the buffer and `bytesRead`,
decoded and assigned to `data`, and `status` is returned. -/
def NonBlockingMQ.read {T : Type} (self : NonBlockingMQ) (from_string : CxxString → T)
    (buffer : List Char) (sys : MqSystem) (data : T) : ReadOutcome MqSystem T :=
  let r := self.receive buffer sys
  match stringFromBuffer r.buffer (toSizeT r.bytesRead) with
  | Except.error ex => ReadOutcome.threw ex data r.stderr r.sys
  | Except.ok message => ReadOutcome.returned r.status (from_string message) r.stderr r.sys

/-- Consecutive calls of `write` on one handle with no other call in between: the
flags returned, in order, and the system after the last call. -/
def NonBlockingMQ.writeAll {T : Type} (self : NonBlockingMQ) (to_string : T → CxxString) :
    List T → MqSystem → List Bool × MqSystem
  | [], sys => ([], sys)
  | v :: vs, sys =>
    let r := self.write to_string v sys
    let rest := NonBlockingMQ.writeAll self to_string vs r.sys
    (r.status :: rest.1, rest.2)

/-- The publisher handle of `test_mqueue.cpp`, constructed on a system without
queues. -/
def test_mq_publisher : NonBlockingMQ :=
  { queueName_ := "my_mq", mq_ := 0 }

/-- The system once the publisher of `test_mqueue.cpp` is constructed. -/
def test_mq_publisher_system : MqSystem :=
  (mq_open "my_mq" { mq_maxmsg := MAX_NUM_MSGS, mq_msgsize := MAX_MSG_SIZE_BYTES }
    (mq_unlink "my_mq" MqSystem.empty)).2

/-- The subscriber handle of `test_mqueue.cpp`, constructed after the publisher on
the same name. -/
def test_mq_subscriber : NonBlockingMQ :=
  { queueName_ := "my_mq", mq_ := 1 }

/-- The system once the subscriber of `test_mqueue.cpp` is constructed as well. -/
def test_mq_system : MqSystem :=
  (mq_open "my_mq" { mq_maxmsg := MAX_NUM_MSGS, mq_msgsize := MAX_MSG_SIZE_BYTES }
    (mq_unlink "my_mq" test_mq_publisher_system)).2

end Mqueue

/-! ## Named pipe: `pipe/non_blocking_pipe.hpp` -/

namespace Pipe

/-- The macro `MAX_MSG_SIZE_BYTES`. -/
def MAX_MSG_SIZE_BYTES : Nat := 4096

/-- The constant `PIPE_BUF`: writes of at most this many bytes are atomic. -/
def PIPE_BUF : Nat := 4096

/-- Named pipes of the system: the paths bound to FIFOs, the bytes buffered in each
FIFO (oldest first), the next unused identifier, and the capacity of a FIFO in
bytes (65536 on Linux). -/
structure PipeSystem where
  names : List (String × Nat)
  fifos : Nat → List Char
  next : Nat
  capacity : Nat

/-- The system with no FIFO and the capacity given. -/
def PipeSystem.empty (capacity : Nat) : PipeSystem :=
  { names := [], fifos := fun _ => [], next := 0, capacity := capacity }

/-- Data members of `NonBlockingPipe`.  The descriptor `fd_` is `-1` or the FIFO it
refers to. -/
structure NonBlockingPipe where
  pipeName_ : String
  fd_ : Int
  deriving DecidableEq

/-- Instance `to_string<int>`. -/
def to_string_int (value : Int) : CxxString := ostreamPutInt value

/-- Instance `to_string<std::string>`. -/
def to_string_string (value : CxxString) : CxxString := ostreamPutString value

/-- Instance `from_string<int>`; `value` is what the uninitialised local `T value;`
happens to hold. -/
def from_string_int (value : Int) (str : CxxString) : Int := istreamGetInt str value

/-- Instance `from_string<std::string>`: the one generic template, extraction with
`>>` into a default-constructed (empty) string. -/
def from_string_string (str : CxxString) : CxxString := istreamGetString str []

/-- Member `pipeExists`: `stat` succeeds when the path is bound. -/
def NonBlockingPipe.pipeExists (self : NonBlockingPipe) (sys : PipeSystem) : Bool :=
  (sys.names.lookup self.pipeName_).isSome

/-- Member `openPipe`: `open(path, O_RDWR | O_NONBLOCK)` yields a descriptor of the
FIFO bound to the path, or `-1` when the path is not bound. -/
def NonBlockingPipe.openPipe (self : NonBlockingPipe) (sys : PipeSystem) : NonBlockingPipe :=
  match sys.names.lookup self.pipeName_ with
  | some id => { self with fd_ := (id : Int) }
  | none => { self with fd_ := -1 }

/-- Call `mkfifo(path, 0666)`: `-1` when the path is bound, else a new empty FIFO is
bound to the path and the result is `0`. -/
def mkfifo (path : String) (sys : PipeSystem) : Int × PipeSystem :=
  match sys.names.lookup path with
  | some _ => (-1, sys)
  | none =>
    (0, { sys with
      names := (path, sys.next) :: sys.names,
      fifos := setObj sys.fifos sys.next [],
      next := sys.next + 1 })

/-- Member `createPipe`. -/
def NonBlockingPipe.createPipe (self : NonBlockingPipe) (sys : PipeSystem) :
    NonBlockingPipe × PipeSystem :=
  let (r, sys1) := mkfifo self.pipeName_ sys
  if r = 0 then (self.openPipe sys1, sys1) else (self, sys1)

/-- Constructor `NonBlockingPipe(pipeName)`. -/
def NonBlockingPipe.new (pipeName : String) (sys : PipeSystem) : NonBlockingPipe × PipeSystem :=
  let self : NonBlockingPipe := { pipeName_ := pipeName, fd_ := -1 }
  if self.pipeExists sys then (self.openPipe sys, sys) else self.createPipe sys

/-- Call `unlink(path)`: the path is removed; the FIFO lives on for the descriptors
that still refer to it. -/
def unlink (path : String) (sys : PipeSystem) : PipeSystem :=
  { sys with names := unlinkName sys.names path }

/-- Member `closePipe`: closing leaves the FIFO as it is; the path is unlinked when the
descriptor is valid. -/
def NonBlockingPipe.closePipe (self : NonBlockingPipe) (sys : PipeSystem) : PipeSystem :=
  if self.fd_ ≠ -1 then unlink self.pipeName_ sys else sys

/-- Destructor `~NonBlockingPipe()`. -/
def NonBlockingPipe.destroy (self : NonBlockingPipe) (sys : PipeSystem) : PipeSystem :=
  self.closePipe sys

/-- Call `::write(fd, buf, count)` on a non-blocking FIFO descriptor, `bytes` being
the `count` bytes offered.  The result is the number of bytes accepted or `-1`.
Nothing offered gives 0.  At most `PIPE_BUF` bytes are accepted whole or not at all;
more than `PIPE_BUF` bytes are accepted as far as there is room, `-1` with no room. -/
def sys_write (fd : Int) (bytes : List Char) (sys : PipeSystem) : Int × PipeSystem :=
  if fd < 0 then (-1, sys)
  else
    let buffered := sys.fifos fd.toNat
    let room := sys.capacity - buffered.length
    if bytes.length = 0 then (0, sys)
    else if bytes.length ≤ PIPE_BUF then
      if bytes.length ≤ room then
        ((bytes.length : Int), { sys with fifos := setObj sys.fifos fd.toNat (buffered ++ bytes) })
      else (-1, sys)
    else if room = 0 then (-1, sys)
    else
      (((min bytes.length room : Nat) : Int),
        { sys with fifos := setObj sys.fifos fd.toNat (buffered ++ bytes.take room) })

/-- Call `::read(fd, buffer, count)` on a non-blocking FIFO descriptor opened
`O_RDWR`: `-1` for an invalid descriptor or an empty FIFO (the descriptor itself
keeps the FIFO open for writing, so an empty FIFO is `EAGAIN`, not end of file), else
the oldest bytes, at most `count`, are removed and returned with their number. -/
def sys_read (fd : Int) (count : Nat) (sys : PipeSystem) : Int × List Char × PipeSystem :=
  if fd < 0 then (-1, [], sys)
  else
    let buffered := sys.fifos fd.toNat
    if buffered.length = 0 then (-1, [], sys)
    else
      (((min count buffered.length : Nat) : Int), buffered.take count,
        { sys with fifos := setObj sys.fifos fd.toNat (buffered.drop count) })

/-- Member `write<T>`, for the instance `to_string` of `to_string<T>`. -/
def NonBlockingPipe.write {T : Type} (self : NonBlockingPipe) (to_string : T → CxxString)
    (data : T) (sys : PipeSystem) : WriteResult PipeSystem :=
  if self.fd_ ≠ -1 then
    let strData := to_string data
    let written := sys_write self.fd_ strData sys
    { status := decide (written.1 = (strData.length : Int)), stderr := [], sys := written.2 }
  else { status := false, stderr := [], sys := sys }

/-- Member `read<T>`, for the instance `from_string` of `from_string<T>`; `buffer` is
what the uninitialised local array holds and `data` is the value the output parameter
holds before the call. -/
def NonBlockingPipe.read {T : Type} (self : NonBlockingPipe) (from_string : CxxString → T)
    (buffer : List Char) (sys : PipeSystem) (data : T) : ReadOutcome PipeSystem T :=
  if self.fd_ ≠ -1 then
    let got := sys_read self.fd_ MAX_MSG_SIZE_BYTES sys
    let bytesRead := got.1
    let filled := got.2.1 ++ buffer.drop got.2.1.length
    if bytesRead > 0 then
      match stringFromBuffer filled (toSizeT bytesRead) with
      | Except.error ex => ReadOutcome.threw ex data [] got.2.2
      | Except.ok strData => ReadOutcome.returned true (from_string strData) [] got.2.2
    else ReadOutcome.returned false data [] got.2.2
  else ReadOutcome.returned false data [] sys

/-- The publisher handle of `test_pipe.cpp`, constructed on a system without FIFOs. -/
def test_pipe_handle : NonBlockingPipe :=
  { pipeName_ := "/tmp/my_pipe", fd_ := 0 }

/-- The system once the publisher of `test_pipe.cpp` is constructed; a FIFO holds
65536 bytes. -/
def test_pipe_system : PipeSystem :=
  (mkfifo "/tmp/my_pipe" (PipeSystem.empty 65536)).2

end Pipe

/-! ## UNIX domain datagram socket: `socket/non_blocking_unix_socket.hpp` -/

namespace Socket

/-- The macro `SOCKET_PATH`. -/
def SOCKET_PATH : String := "non_blocking_socket"

/-- The macro `BUFFER_SIZE`. -/
def BUFFER_SIZE : Nat := 4096

/-- A datagram socket: the datagrams received and not yet read, oldest first. -/
structure DgramSocket where
  rcvq : List (List Char)
  deriving DecidableEq

/-- Datagram sockets of the system: the paths sockets are bound to, the sockets that
are open, the next unused identifier, and the number of bytes the receive queue of a
socket holds. -/
structure SocketSystem where
  paths : List (String × Nat)
  sockets : Nat → Option DgramSocket
  next : Nat
  rcvbuf : Nat

/-- The system with no socket and the receive-queue size given. -/
def SocketSystem.empty (rcvbuf : Nat) : SocketSystem :=
  { paths := [], sockets := fun _ => none, next := 0, rcvbuf := rcvbuf }

/-- Data members of `NonBlockingUnixSocket`.  The descriptor `socketFd_` is `-1` or the
socket it refers to; `addr_` is the `sun_path` of the address. -/
structure NonBlockingUnixSocket where
  socketFd_ : Int
  addr_ : String
  isServer_ : Bool
  deriving DecidableEq

/-- Instance `to_string<int>`. -/
def NonBlockingUnixSocket.to_string_int (value : Int) : CxxString := ostreamPutInt value

/-- Instance `to_string<std::string>`. -/
def NonBlockingUnixSocket.to_string_string (value : CxxString) : CxxString :=
  ostreamPutString value

/-- Instance `from_string<int>` (the overload for types other than `std::string`);
`value` is what the uninitialised local `T value;` happens to hold. -/
def NonBlockingUnixSocket.from_string_int (value : Int) (str : CxxString) : Int :=
  istreamGetInt str value

/-- Instance `from_string<std::string>` (the overload for `std::string`): the string
as read, unmodified. -/
def NonBlockingUnixSocket.from_string_string (str : CxxString) : CxxString := str

/-- Call `socket(AF_UNIX, SOCK_DGRAM, 0)`: a new socket with nothing received. -/
def socket (sys : SocketSystem) : Int × SocketSystem :=
  ((sys.next : Int),
    { sys with
      sockets := setObj sys.sockets sys.next (some { rcvq := [] }),
      next := sys.next + 1 })

/-- Call `unlink(path)`: the path is removed from the file system. -/
def unlink (path : String) (sys : SocketSystem) : SocketSystem :=
  { sys with paths := unlinkName sys.paths path }

/-- Call `bind(fd, addr, len)`: `-1` when the path exists, else the path is created
and bound to the socket and the result is `0`. -/
def bind (fd : Int) (path : String) (sys : SocketSystem) : Int × SocketSystem :=
  match sys.paths.lookup path with
  | some _ => (-1, sys)
  | none => (0, { sys with paths := (path, fd.toNat) :: sys.paths })

/-- Call `close(fd)` on a socket descriptor: the socket is gone, with what it had
received; a path bound to it stays in the file system. -/
def close (fd : Int) (sys : SocketSystem) : SocketSystem :=
  if fd < 0 then sys else { sys with sockets := setObj sys.sockets fd.toNat none }

/-- Bytes held by a receive queue. -/
def queuedBytes (rcvq : List (List Char)) : Nat := (rcvq.map List.length).sum

/-- Call `sendto(fd, msg, len, 0, addr, addrlen)` on a non-blocking datagram socket,
`msg` being the `len` bytes sent: `EBADF` for an invalid descriptor, `ENOENT` when the
path does not exist, `ECONNREFUSED` when no open socket is bound to it, `EMSGSIZE` for
a datagram larger than a receive queue, `EAGAIN` when the receive queue of the peer
has no room for it, else the datagram is queued whole and its length returned. -/
def sendto (fd : Int) (msg : List Char) (path : String) (sys : SocketSystem) :
    Except Errno (Int × SocketSystem) :=
  if fd < 0 then Except.error Errno.EBADF
  else
    match sys.sockets fd.toNat with
    | none => Except.error Errno.EBADF
    | some _ =>
      match sys.paths.lookup path with
      | none => Except.error Errno.ENOENT
      | some peer =>
        match sys.sockets peer with
        | none => Except.error Errno.ECONNREFUSED
        | some s =>
          if msg.length > sys.rcvbuf then Except.error Errno.EMSGSIZE
          else if queuedBytes s.rcvq + msg.length > sys.rcvbuf then Except.error Errno.EAGAIN
          else
            Except.ok ((msg.length : Int), { sys with
              sockets := setObj sys.sockets peer (some { rcvq := s.rcvq ++ [msg] }) })

/-- Call `recvfrom(fd, buffer, len, 0, addr, addrlen)` on a non-blocking datagram
socket: `EBADF` for an invalid descriptor, `EAGAIN` when nothing was received, else
the oldest datagram is removed; its first `len` bytes are returned with their
number and the rest of it is discarded.  Every sender of this system is unbound or
bound to `SOCKET_PATH`, so the address stored in `addr` leaves `sun_path` as it is. -/
def recvfrom (fd : Int) (len : Nat) (sys : SocketSystem) :
    Except Errno (Int × List Char × SocketSystem) :=
  if fd < 0 then Except.error Errno.EBADF
  else
    match sys.sockets fd.toNat with
    | none => Except.error Errno.EBADF
    | some s =>
      match s.rcvq with
      | [] => Except.error Errno.EAGAIN
      | d :: rest =>
        Except.ok (((min d.length len : Nat) : Int), d.take len,
          { sys with sockets := setObj sys.sockets fd.toNat (some { rcvq := rest }) })

/-- Constructor `NonBlockingUnixSocket(isServer)`.  The result is `none` where the
source calls `exit(EXIT_FAILURE)`. -/
def NonBlockingUnixSocket.new (isServer : Bool) (sys : SocketSystem) :
    Option (NonBlockingUnixSocket × SocketSystem) :=
  let (fd, sys1) := socket sys
  if fd = -1 then none
  else
    let self : NonBlockingUnixSocket :=
      { socketFd_ := fd, addr_ := SOCKET_PATH, isServer_ := isServer }
    if isServer then
      let sys2 := unlink SOCKET_PATH sys1
      let (r, sys3) := bind fd SOCKET_PATH sys2
      if r = -1 then none else some (self, sys3)
    else some (self, sys1)

/-- Destructor `~NonBlockingUnixSocket()`. -/
def NonBlockingUnixSocket.destroy (self : NonBlockingUnixSocket) (sys : SocketSystem) :
    SocketSystem :=
  let sys1 := close self.socketFd_ sys
  if self.isServer_ then unlink SOCKET_PATH sys1 else sys1

/-- Member `serverExists`: `stat(SOCKET_PATH)` succeeds when the path exists. -/
def NonBlockingUnixSocket.serverExists (_self : NonBlockingUnixSocket) (sys : SocketSystem) :
    Bool :=
  (sys.paths.lookup SOCKET_PATH).isSome

/-- Member `write<T>`, for the instance `to_string` of `to_string<T>`.  (`EWOULDBLOCK`
is the same error number as `EAGAIN`.) -/
def NonBlockingUnixSocket.write {T : Type} (self : NonBlockingUnixSocket)
    (to_string : T → CxxString) (data : T) (sys : SocketSystem) : WriteResult SocketSystem :=
  if !self.serverExists sys then
    { status := false, stderr := ["Server socket does not exist yet."], sys := sys }
  else
    let message := to_string data
    match sendto self.socketFd_ message self.addr_ sys with
    | Except.error e =>
      if e = Errno.EAGAIN then
        { status := false, stderr := ["Socket is not ready for writing, try again later."],
          sys := sys }
      else { status := false, stderr := [perror "sendto" e], sys := sys }
    | Except.ok sent => { status := true, stderr := [], sys := sent.2 }

/-- Member `read<T>`, for the instance `from_string` of `from_string<T>`; `buffer` is
what the uninitialised local array holds and `data` is the value the output parameter
holds before the call. -/
def NonBlockingUnixSocket.read {T : Type} (self : NonBlockingUnixSocket)
    (from_string : CxxString → T) (buffer : List Char) (sys : SocketSystem) (data : T) :
    ReadOutcome SocketSystem T :=
  match recvfrom self.socketFd_ BUFFER_SIZE sys with
  | Except.error e =>
    if e = Errno.EAGAIN then
      ReadOutcome.returned false data ["No data available to read."] sys
    else ReadOutcome.returned false data [perror "recvfrom" e] sys
  | Except.ok got =>
    let bytesRead := got.1
    let filled := got.2.1 ++ buffer.drop got.2.1.length
    match stringFromBuffer filled (toSizeT bytesRead) with
    | Except.error ex => ReadOutcome.threw ex data [] got.2.2
    | Except.ok message => ReadOutcome.returned true (from_string message) [] got.2.2

/-- The client handle of `test_socket.cpp`, constructed first on a system without
sockets. -/
def test_socket_client : NonBlockingUnixSocket :=
  { socketFd_ := 0, addr_ := SOCKET_PATH, isServer_ := false }

/-- The system once the client of `test_socket.cpp` is constructed; a receive queue
holds 212992 bytes. -/
def test_socket_client_system : SocketSystem :=
  (socket (SocketSystem.empty 212992)).2

/-- The server handle of `test_socket.cpp`, constructed after the client. -/
def test_socket_server : NonBlockingUnixSocket :=
  { socketFd_ := 1, addr_ := SOCKET_PATH, isServer_ := true }

/-- The system once the server of `test_socket.cpp` is constructed as well. -/
def test_socket_system : SocketSystem :=
  (bind 1 SOCKET_PATH (unlink SOCKET_PATH (socket test_socket_client_system).2)).2

end Socket

end PosixIpc

/-! # Properties -/

namespace PosixIpc

theorem digitVal_digitChar (d : Nat) (h : d < 10) : digitVal (digitChar d) = d := by
  interval_cases d <;> rfl

theorem isdigit_digitChar (d : Nat) (h : d < 10) : isdigit (digitChar d) = true := by
  interval_cases d <;> rfl

theorem putDigits_value (fuel : Nat) : ∀ (n : Nat) (acc : List Char), n < fuel →
    List.foldl (fun a c => a * 10 + digitVal c) 0 (putDigits fuel n acc)
      = List.foldl (fun a c => a * 10 + digitVal c) n acc := by
  induction fuel with
  | zero => intro n acc h; omega
  | succ k ih =>
    intro n acc h
    unfold putDigits
    split_ifs with h10
    · simp [List.foldl_cons, digitVal_digitChar n h10]
    · rw [ih (n / 10) _ (by omega)]
      simp only [List.foldl_cons]
      rw [digitVal_digitChar _ (Nat.mod_lt _ (by norm_num))]
      congr 1
      omega

theorem putDigits_all (P : Char → Prop) (hP : ∀ d, d < 10 → P (digitChar d)) (fuel : Nat) :
    ∀ (n : Nat) (acc : List Char), (∀ c ∈ acc, P c) → ∀ c ∈ putDigits fuel n acc, P c := by
  induction fuel with
  | zero => intro n acc h; simpa [putDigits] using h
  | succ k ih =>
    intro n acc h
    unfold putDigits
    split_ifs with h10
    · intro c hc
      rcases List.mem_cons.mp hc with rfl | hc
      · exact hP n h10
      · exact h c hc
    · apply ih
      intro c hc
      rcases List.mem_cons.mp hc with rfl | hc
      · exact hP _ (Nat.mod_lt _ (by norm_num))
      · exact h c hc

theorem putDigits_ne_nil (fuel : Nat) : ∀ (n : Nat) (acc : List Char), n < fuel →
    putDigits fuel n acc ≠ [] := by
  induction fuel with
  | zero => intro n acc h; omega
  | succ k ih =>
    intro n acc h
    unfold putDigits
    split_ifs with h10
    · simp
    · exact ih _ _ (by omega)

theorem putNat_isdigit (n : Nat) : ∀ c ∈ putNat n, isdigit c = true :=
  putDigits_all (fun c => isdigit c = true) isdigit_digitChar (n + 1) n [] (by simp)

theorem putNat_ne_nil (n : Nat) : putNat n ≠ [] :=
  putDigits_ne_nil (n + 1) n [] (by omega)

theorem digitsValue_putNat (n : Nat) : digitsValue (putNat n) = n := by
  unfold digitsValue putNat
  rw [putDigits_value (n + 1) n [] (by omega)]
  rfl

theorem takeWhile_isdigit_putNat (n : Nat) : (putNat n).takeWhile isdigit = putNat n :=
  List.takeWhile_eq_self_iff.mpr (putNat_isdigit n)

theorem isdigit_not_isspace (c : Char) (h : isdigit c = true) : isspace c = false := by
  simp only [isdigit, isspace, Bool.and_eq_true, decide_eq_true_eq] at h ⊢
  simp only [Bool.or_eq_false_iff, Bool.and_eq_false_iff, beq_eq_false_iff_ne, decide_eq_false_iff_not]
  omega

theorem isdigit_ne_minus (c : Char) (h : isdigit c = true) : c ≠ '-' := by
  rintro rfl; revert h; decide

theorem isdigit_ne_plus (c : Char) (h : isdigit c = true) : c ≠ '+' := by
  rintro rfl; revert h; decide

theorem isdigit_ne_NUL (c : Char) (h : isdigit c = true) : c ≠ NUL := by
  rintro rfl; revert h; decide

/-- Round trip of the stream formatting of `int`: extraction reads back what
insertion printed, for every value of the 32-bit range. -/
theorem istreamGetInt_ostreamPutInt (n g : Int) (hlo : INT_MIN ≤ n) (hhi : n ≤ INT_MAX) :
    istreamGetInt (ostreamPutInt n) g = n := by
  obtain ⟨c, rest, hcr⟩ := List.exists_cons_of_ne_nil (putNat_ne_nil n.natAbs)
  have hcd : isdigit c = true := putNat_isdigit n.natAbs c (by rw [hcr]; simp)
  have htw := takeWhile_isdigit_putNat n.natAbs
  have hval := digitsValue_putNat n.natAbs
  unfold ostreamPutInt
  by_cases hneg : n < 0
  · rw [if_pos hneg]
    unfold istreamGetInt
    have hsp : isspace '-' = false := by decide
    rw [List.dropWhile_cons_of_neg (by simp [hsp])]
    simp only [true_or, if_true, htw, putNat_ne_nil, if_false, hval]
    unfold INT_MAX INT_MIN at *
    split_ifs <;> omega
  · rw [if_neg hneg, hcr]
    unfold istreamGetInt
    rw [List.dropWhile_cons_of_neg (by simp [isdigit_not_isspace c hcd])]
    simp only [isdigit_ne_minus c hcd, isdigit_ne_plus c hcd, or_self, if_false, ← hcr, htw,
      putNat_ne_nil, hval]
    unfold INT_MAX INT_MIN at *
    split_ifs <;> omega

theorem ostreamPutInt_no_NUL (n : Int) : NUL ∉ ostreamPutInt n := by
  unfold ostreamPutInt
  intro h
  have hd : ∀ c ∈ putNat n.natAbs, c ≠ NUL := fun c hc => isdigit_ne_NUL c (putNat_isdigit _ c hc)
  split_ifs at h
  · rcases List.mem_cons.mp h with h | h
    · revert h; decide
    · exact hd _ h rfl
  · exact hd _ h rfl

theorem stringFromCStr_c_str (s rest : List Char) (h : NUL ∉ s) :
    stringFromCStr (s ++ NUL :: rest) = s := by
  unfold stringFromCStr
  induction s with
  | nil => simp
  | cons a t ih =>
    have ha : a ≠ NUL := fun e => h (by simp [e])
    have ht : NUL ∉ t := fun e => h (by simp [e])
    simp [List.takeWhile_cons, ha]
    simpa using ih ht

end PosixIpc

namespace PosixIpc

theorem putDigits_length (fuel : Nat) : ∀ (n k : Nat) (acc : List Char), n < 10 ^ (k + 1) →
    (putDigits fuel n acc).length ≤ acc.length + (k + 1) := by
  induction fuel with
  | zero => intro n k acc _; simp [putDigits]
  | succ f ih =>
    intro n k acc h
    unfold putDigits
    split_ifs with h10
    · simp
    · cases k with
      | zero => simp at h; omega
      | succ j =>
        have hdiv : n / 10 < 10 ^ (j + 1) := by
          rw [Nat.div_lt_iff_lt_mul (by norm_num)]
          calc n < 10 ^ (j + 1 + 1) := h
            _ = 10 ^ (j + 1) * 10 := by ring
        have := ih (n / 10) j (digitChar (n % 10) :: acc) hdiv
        simp only [List.length_cons] at this
        omega

theorem ostreamPutInt_length (n : Int) (hlo : INT_MIN ≤ n) (hhi : n ≤ INT_MAX) :
    (ostreamPutInt n).length ≤ 11 := by
  have hb : n.natAbs < 10 ^ (9 + 1) := by
    unfold INT_MIN INT_MAX at *
    omega
  have hl := putDigits_length (n.natAbs + 1) n.natAbs 9 [] hb
  unfold ostreamPutInt putNat
  split_ifs <;> simp only [List.length_cons, List.length_nil] at * <;> omega

namespace Shm

theorem write_accepts {T : Type} (self : NonBlockingSHM) (to_string : T → CxxString) (data : T)
    (sys : ShmSystem) (p : Nat) (hopen : self.isOpen = true) (hp : self.shmPtr_ = some p)
    (hlen : (to_string data).length + 1 ≤ SHM_SIZE) :
    (self.write to_string data sys).status = true ∧
    (self.write to_string data sys).sys.objects p =
      to_string data ++ NUL :: List.replicate (SHM_SIZE - ((to_string data).length + 1)) NUL
        ++ (sys.objects p).drop SHM_SIZE := by
  unfold NonBlockingSHM.write
  simp only [hopen, Bool.not_true, Bool.false_eq_true, if_false, hp, not_lt.mpr hlen]
  refine ⟨trivial, ?_⟩
  simp only [setObj, if_true, memcpy, memset, c_str]
  rw [List.take_of_length_le (by simp)]
  rw [List.drop_append_eq_append_drop, List.drop_replicate]
  simp only [List.length_replicate, List.append_assoc, List.singleton_append]
  have : (to_string data).length + 1 - SHM_SIZE = 0 := by omega
  rw [this, List.drop_zero]
  simp

theorem read_open {T : Type} (self : NonBlockingSHM) (from_string : CxxString → T)
    (sys : ShmSystem) (data : T) (p : Nat) (hopen : self.isOpen = true)
    (hp : self.shmPtr_ = some p) :
    self.read from_string sys data
      = ReadOutcome.returned true (from_string (stringFromCStr (sys.objects p))) [] sys := by
  unfold NonBlockingSHM.read
  simp [hopen, hp]

theorem isOpen_ptr (self : NonBlockingSHM) (hopen : self.isOpen = true) :
    ∃ p, self.shmPtr_ = some p := by
  unfold NonBlockingSHM.isOpen at hopen
  cases h : self.shmPtr_ with
  | none => simp [h] at hopen
  | some p => exact ⟨p, rfl⟩

theorem write_then_read {T : Type} (writer reader : NonBlockingSHM) (to_string : T → CxxString)
    (from_string : CxxString → T) (v d : T) (sys : ShmSystem)
    (hw : writer.isOpen = true) (hr : reader.isOpen = true)
    (hmap : reader.shmPtr_ = writer.shmPtr_)
    (hlen : (to_string v).length + 1 ≤ SHM_SIZE) (hnul : NUL ∉ to_string v) :
    (writer.write to_string v sys).status = true ∧
    reader.read from_string (writer.write to_string v sys).sys d
      = ReadOutcome.returned true (from_string (to_string v)) []
          (writer.write to_string v sys).sys := by
  obtain ⟨p, hp⟩ := isOpen_ptr writer hw
  obtain ⟨hst, hobj⟩ := write_accepts writer to_string v sys p hw hp hlen
  refine ⟨hst, ?_⟩
  rw [read_open reader from_string _ d p hr (hmap.trans hp), hobj, List.append_assoc,
    List.cons_append, stringFromCStr_c_str _ _ hnul]

/-- Claim C1. Shared-memory round trip: on an open writer and an open reader mapped to
the same region, writing a string without NUL of at most 4095 characters, or any
32-bit `int`, returns true, and the read that follows returns true with the value
written. -/
theorem shm_write_read_round_trip (sys : ShmSystem) (writer reader : NonBlockingSHM)
    (hw : writer.isOpen = true) (hr : reader.isOpen = true)
    (hmap : reader.shmPtr_ = writer.shmPtr_) :
    (∀ s d : CxxString, NUL ∉ s → s.length ≤ 4095 →
      (writer.write NonBlockingSHM.to_string_string s sys).status = true ∧
      reader.read NonBlockingSHM.from_string_string
        (writer.write NonBlockingSHM.to_string_string s sys).sys d
        = ReadOutcome.returned true s [] (writer.write NonBlockingSHM.to_string_string s sys).sys) ∧
    (∀ n d g : Int, INT_MIN ≤ n → n ≤ INT_MAX →
      (writer.write NonBlockingSHM.to_string_int n sys).status = true ∧
      reader.read (NonBlockingSHM.from_string_int g)
        (writer.write NonBlockingSHM.to_string_int n sys).sys d
        = ReadOutcome.returned true n [] (writer.write NonBlockingSHM.to_string_int n sys).sys) := by
  constructor
  · intro s d hnul hlen
    exact write_then_read writer reader NonBlockingSHM.to_string_string
      NonBlockingSHM.from_string_string s d sys hw hr hmap
      (by simp only [NonBlockingSHM.to_string_string, ostreamPutString, SHM_SIZE]; omega)
      (by simpa [NonBlockingSHM.to_string_string, ostreamPutString] using hnul)
  · intro n d g hlo hhi
    have hl := ostreamPutInt_length n hlo hhi
    have h := write_then_read writer reader NonBlockingSHM.to_string_int
      (NonBlockingSHM.from_string_int g) n d sys hw hr hmap
      (by simp only [NonBlockingSHM.to_string_int, SHM_SIZE]; omega)
      (by simpa [NonBlockingSHM.to_string_int] using ostreamPutInt_no_NUL n)
    refine ⟨h.1, ?_⟩
    rw [h.2]
    simp only [NonBlockingSHM.from_string_int, NonBlockingSHM.to_string_int,
      istreamGetInt_ostreamPutInt n g hlo hhi]

end Shm
end PosixIpc

namespace PosixIpc

theorem lookup_unlinkName (names : List (String × Nat)) (name : String) :
    (unlinkName names name).lookup name = none := by
  unfold unlinkName
  induction names with
  | nil => rfl
  | cons e rest ih =>
    obtain ⟨k, v⟩ := e
    by_cases h : k = name
    · rw [List.filter_cons_of_neg (by simp [h])]
      exact ih
    · rw [List.filter_cons_of_pos (by simpa using h)]
      have hne : (name == k) = false := by
        simpa using fun h' => h h'.symm
      rw [List.lookup_cons, hne]
      exact ih

theorem toSizeT_neg_one : toSizeT (-1) = 2 ^ 64 - 1 := by decide

theorem stringFromBuffer_neg_one (buffer : List Char) :
    stringFromBuffer buffer (toSizeT (-1)) = Except.error CxxException.length_error := by
  unfold stringFromBuffer
  rw [toSizeT_neg_one, if_pos (by decide)]

theorem toSizeT_natCast (n : Nat) (h : n < 2 ^ 64) : toSizeT (n : Int) = n := by
  unfold toSizeT
  have : ((n : Int) % (2 ^ 64 : Int)) = (n : Int) := Int.emod_eq_of_lt (by omega) (by omega)
  rw [this]
  simp

theorem stringFromBuffer_take (chunk rest : List Char) (h : chunk.length ≤ 4096) :
    stringFromBuffer (chunk ++ rest) (toSizeT (chunk.length : Int)) = Except.ok chunk := by
  unfold stringFromBuffer
  rw [toSizeT_natCast _ (by omega), if_neg (by unfold string_max_size; omega)]
  simp

end PosixIpc

namespace PosixIpc
namespace Shm

/-- The two constructor calls of `main` in `test_shm.cpp` succeed and yield
`test_shm_handle` twice, over `test_shm_system`. -/
theorem test_shm_constructed :
    NonBlockingSHM.new "/test_shm" ShmSystem.empty = some (test_shm_handle, test_shm_system) ∧
    NonBlockingSHM.new "/test_shm" test_shm_system = some (test_shm_handle, test_shm_system) := by
  have hsize : NonBlockingSHM.shmSize 0 test_shm_system = (SHM_SIZE : Int) := by
    simp only [NonBlockingSHM.shmSize, test_shm_system, ftruncate, shm_open, ShmSystem.empty,
      List.lookup, setObj, Int.toNat_zero, if_true, List.take_nil, List.length_nil,
      List.nil_append, List.length_replicate, Nat.sub_zero]
  refine ⟨rfl, ?_⟩
  have hopen : shm_open "/test_shm" test_shm_system = (0, test_shm_system) := rfl
  simp only [NonBlockingSHM.new, hopen, hsize]
  rfl

/-- Witness of `shm_write_read_round_trip`: the handles of `test_shm.cpp`, the string
"Hello, Shared Memory!" and the number 300. -/
theorem shm_write_read_round_trip_witness :
    (test_shm_handle.isOpen = true ∧ test_shm_handle.shmPtr_ = test_shm_handle.shmPtr_) ∧
    (NUL ∉ "Hello, Shared Memory!".toList ∧ "Hello, Shared Memory!".toList.length ≤ 4095 ∧
      (test_shm_handle.write NonBlockingSHM.to_string_string "Hello, Shared Memory!".toList
          test_shm_system).status = true ∧
      test_shm_handle.read NonBlockingSHM.from_string_string
        (test_shm_handle.write NonBlockingSHM.to_string_string "Hello, Shared Memory!".toList
          test_shm_system).sys []
        = ReadOutcome.returned true "Hello, Shared Memory!".toList []
            (test_shm_handle.write NonBlockingSHM.to_string_string
              "Hello, Shared Memory!".toList test_shm_system).sys) ∧
    (INT_MIN ≤ 300 ∧ (300 : Int) ≤ INT_MAX ∧
      (test_shm_handle.write NonBlockingSHM.to_string_int 300 test_shm_system).status = true ∧
      test_shm_handle.read (NonBlockingSHM.from_string_int 0)
        (test_shm_handle.write NonBlockingSHM.to_string_int 300 test_shm_system).sys 0
        = ReadOutcome.returned true 300 []
            (test_shm_handle.write NonBlockingSHM.to_string_int 300 test_shm_system).sys) :=
  ⟨⟨by decide, rfl⟩,
   ⟨by decide, by decide,
    (shm_write_read_round_trip test_shm_system test_shm_handle test_shm_handle
      (by decide) (by decide) rfl).1 "Hello, Shared Memory!".toList [] (by decide) (by decide)⟩,
   ⟨by decide, by decide,
    (shm_write_read_round_trip test_shm_system test_shm_handle test_shm_handle
      (by decide) (by decide) rfl).2 300 0 0 (by decide) (by decide)⟩⟩

/-- Claim C2. Over-length write on shared memory: a value whose encoded text has 4096
characters or more (`size + 1 > SHM_SIZE`) makes `write` return false with the whole
system, the mapped region included, as it was; an encoded text of exactly 4095
characters is accepted by an open handle. -/
theorem shm_write_over_length {T : Type} (self : NonBlockingSHM) (to_string : T → CxxString)
    (sys : ShmSystem) :
    (∀ data : T, (to_string data).length + 1 > SHM_SIZE →
      (self.write to_string data sys).status = false ∧
      (self.write to_string data sys).sys = sys) ∧
    (∀ data : T, 4096 ≤ (to_string data).length →
      (self.write to_string data sys).status = false ∧
      (self.write to_string data sys).sys = sys) ∧
    (∀ data : T, self.isOpen = true → (to_string data).length = 4095 →
      (self.write to_string data sys).status = true) := by
  have key : ∀ data : T, (to_string data).length + 1 > SHM_SIZE →
      (self.write to_string data sys).status = false ∧
      (self.write to_string data sys).sys = sys := by
    intro data h
    unfold NonBlockingSHM.write
    by_cases ho : self.isOpen = true
    · simp [ho, h]
    · simp [ho]
  refine ⟨key, fun data h => key data (by unfold SHM_SIZE; omega), ?_⟩
  intro data ho hlen
  obtain ⟨p, hp⟩ := isOpen_ptr self ho
  exact (write_accepts self to_string data sys p ho hp (by unfold SHM_SIZE; omega)).1

/-- Witness of `shm_write_over_length`: strings of 4096 and of 4095 characters on the
handle of `test_shm.cpp`. -/
theorem shm_write_over_length_witness :
    ((NonBlockingSHM.to_string_string (List.replicate 4096 'a')).length + 1 > SHM_SIZE ∧
      (test_shm_handle.write NonBlockingSHM.to_string_string (List.replicate 4096 'a')
        test_shm_system).status = false ∧
      (test_shm_handle.write NonBlockingSHM.to_string_string (List.replicate 4096 'a')
        test_shm_system).sys = test_shm_system) ∧
    (4096 ≤ (NonBlockingSHM.to_string_string (List.replicate 4096 'a')).length ∧
      (test_shm_handle.write NonBlockingSHM.to_string_string (List.replicate 4096 'a')
        test_shm_system).status = false ∧
      (test_shm_handle.write NonBlockingSHM.to_string_string (List.replicate 4096 'a')
        test_shm_system).sys = test_shm_system) ∧
    (test_shm_handle.isOpen = true ∧
      (NonBlockingSHM.to_string_string (List.replicate 4095 'a')).length = 4095 ∧
      (test_shm_handle.write NonBlockingSHM.to_string_string (List.replicate 4095 'a')
        test_shm_system).status = true) :=
  have h1 : (NonBlockingSHM.to_string_string (List.replicate 4096 'a')).length + 1 > SHM_SIZE := by
    unfold NonBlockingSHM.to_string_string ostreamPutString SHM_SIZE
    rw [List.length_replicate]
    omega
  have h2 : 4096 ≤ (NonBlockingSHM.to_string_string (List.replicate 4096 'a')).length := by
    unfold NonBlockingSHM.to_string_string ostreamPutString
    rw [List.length_replicate]
  have h3 : (NonBlockingSHM.to_string_string (List.replicate 4095 'a')).length = 4095 := by
    unfold NonBlockingSHM.to_string_string ostreamPutString
    rw [List.length_replicate]
  ⟨⟨h1, (shm_write_over_length test_shm_handle NonBlockingSHM.to_string_string
      test_shm_system).1 _ h1⟩,
   ⟨h2, (shm_write_over_length test_shm_handle NonBlockingSHM.to_string_string
      test_shm_system).2.1 _ h2⟩,
   ⟨by decide, h3, (shm_write_over_length test_shm_handle NonBlockingSHM.to_string_string
      test_shm_system).2.2 _ (by decide) h3⟩⟩

end Shm
end PosixIpc

namespace PosixIpc
namespace Mqueue

theorem c_str_length (s : CxxString) : (c_str s).length = s.length + 1 := by
  simp [c_str]

theorem write_sent {T : Type} (self : NonBlockingMQ) (to_string : T → CxxString) (v : T)
    (sys : MqSystem) (q : MessageQueue) (hfd : ¬ self.mq_ < 0)
    (hq : sys.queues self.mq_.toNat = some q)
    (hfit : (to_string v).length + 1 ≤ q.attr.mq_msgsize)
    (hroom : q.msgs.length < q.attr.mq_maxmsg) :
    self.write to_string v sys =
      { status := true, stderr := [],
        sys := { sys with queues := (setObj sys.queues self.mq_.toNat
                  (some { q with msgs := q.msgs ++ [c_str (to_string v)] })) } } := by
  unfold NonBlockingMQ.write mq_send
  simp only [if_neg hfd, hq, c_str_length, gt_iff_lt, ge_iff_le]
  rw [if_neg (by omega), if_neg (by omega)]

theorem write_full {T : Type} (self : NonBlockingMQ) (to_string : T → CxxString) (v : T)
    (sys : MqSystem) (q : MessageQueue) (hfd : ¬ self.mq_ < 0)
    (hq : sys.queues self.mq_.toNat = some q)
    (hfit : (to_string v).length + 1 ≤ q.attr.mq_msgsize)
    (hfull : q.attr.mq_maxmsg ≤ q.msgs.length) :
    self.write to_string v sys =
      { status := false, stderr := ["Queue is full, message not sent."], sys := sys } := by
  unfold NonBlockingMQ.write mq_send
  simp only [if_neg hfd, hq, c_str_length, gt_iff_lt, ge_iff_le]
  rw [if_neg (by omega), if_pos hfull]
  simp

theorem write_too_long {T : Type} (self : NonBlockingMQ) (to_string : T → CxxString) (v : T)
    (sys : MqSystem) (q : MessageQueue) (hfd : ¬ self.mq_ < 0)
    (hq : sys.queues self.mq_.toNat = some q)
    (hlong : (to_string v).length + 1 > q.attr.mq_msgsize) :
    self.write to_string v sys =
      { status := false, stderr := [perror "mq_send" Errno.EMSGSIZE], sys := sys } := by
  unfold NonBlockingMQ.write mq_send
  simp only [if_neg hfd, hq, c_str_length, gt_iff_lt]
  rw [if_pos (by omega)]
  simp

theorem new_fresh (queueName : String) (sys0 : MqSystem) :
    ∃ sys1, NonBlockingMQ.new queueName sys0
        = some ({ queueName_ := queueName, mq_ := (sys0.next : Int) }, sys1) ∧
      sys1.queues sys0.next
        = some { attr := { mq_maxmsg := MAX_NUM_MSGS, mq_msgsize := MAX_MSG_SIZE_BYTES },
                 msgs := [] } := by
  have hlook : (mq_unlink queueName sys0).names.lookup queueName = none :=
    lookup_unlinkName sys0.names queueName
  have hnext : (mq_unlink queueName sys0).next = sys0.next := rfl
  have hne : ¬ ((sys0.next : Int) = -1) := by omega
  refine ⟨(mq_open queueName { mq_maxmsg := MAX_NUM_MSGS, mq_msgsize := MAX_MSG_SIZE_BYTES }
    (mq_unlink queueName sys0)).2, ?_, ?_⟩
  · unfold NonBlockingMQ.new mq_open
    simp only [hlook, hnext, if_neg hne]
  · unfold mq_open
    simp only [hlook, hnext, setObj, if_true]

theorem writeAll_fill {T : Type} (self : NonBlockingMQ) (to_string : T → CxxString)
    (hfd : ¬ self.mq_ < 0) :
    ∀ (values : List T) (sys : MqSystem) (q : MessageQueue),
      sys.queues self.mq_.toNat = some q →
      (∀ v ∈ values, (to_string v).length + 1 ≤ q.attr.mq_msgsize) →
      q.msgs.length + values.length ≤ q.attr.mq_maxmsg →
      (self.writeAll to_string values sys).1 = List.replicate values.length true ∧
      (self.writeAll to_string values sys).2.queues self.mq_.toNat
        = some { q with msgs := q.msgs ++ values.map (fun v => c_str (to_string v)) } := by
  intro values
  induction values with
  | nil =>
    intro sys q hq _ _
    simp [NonBlockingMQ.writeAll, hq]
  | cons v vs ih =>
    intro sys q hq hfit hroom
    simp only [List.length_cons] at hroom
    have hw := write_sent self to_string v sys q hfd hq (hfit v (by simp)) (by omega)
    have hq1 : (self.write to_string v sys).sys.queues self.mq_.toNat
        = some { q with msgs := q.msgs ++ [c_str (to_string v)] } := by
      rw [hw]; simp [setObj]
    have hst : (self.write to_string v sys).status = true := by rw [hw]
    obtain ⟨h1, h2⟩ := ih (self.write to_string v sys).sys
      { q with msgs := q.msgs ++ [c_str (to_string v)] } hq1
      (fun x hx => hfit x (by simp [hx]))
      (by simp only [List.length_append, List.length_cons, List.length_nil]; omega)
    constructor
    · simp only [NonBlockingMQ.writeAll, h1, hst, List.length_cons, List.replicate_succ]
    · simp only [NonBlockingMQ.writeAll, h2, List.map_cons, List.append_assoc,
        List.singleton_append]

/-- Claim C3. Queue depth limit: on a queue just constructed (at most 10 messages of at
most 4096 bytes), for all values whose encoded text and terminator fit in one
message, 10 consecutive writes all return true, and the 11th write returns false
with the line "Queue is full, message not sent." (the `EAGAIN` branch), leaving the
system, with the 10 pending messages, as it was. -/
theorem mq_depth_limit {T : Type} (to_string : T → CxxString) (queueName : String)
    (sys0 : MqSystem) (values : List T) (extra : T)
    (hcount : values.length = MAX_NUM_MSGS)
    (hfit : ∀ v ∈ values, (to_string v).length + 1 ≤ MAX_MSG_SIZE_BYTES)
    (hextra : (to_string extra).length + 1 ≤ MAX_MSG_SIZE_BYTES) :
    ∃ (self : NonBlockingMQ) (sys1 : MqSystem),
      NonBlockingMQ.new queueName sys0 = some (self, sys1) ∧
      (self.writeAll to_string values sys1).1 = List.replicate MAX_NUM_MSGS true ∧
      Option.map MessageQueue.msgs ((self.writeAll to_string values sys1).2.queues self.mq_.toNat)
        = some (values.map (fun v => c_str (to_string v))) ∧
      self.write to_string extra (self.writeAll to_string values sys1).2
        = { status := false, stderr := ["Queue is full, message not sent."],
            sys := (self.writeAll to_string values sys1).2 } := by
  obtain ⟨sys1, hnew, hq⟩ := new_fresh queueName sys0
  refine ⟨_, sys1, hnew, ?_⟩
  have hfd : ¬ ((sys0.next : Int) < 0) := by omega
  have hq0 : sys1.queues (sys0.next : Int).toNat
      = some { attr := { mq_maxmsg := MAX_NUM_MSGS, mq_msgsize := MAX_MSG_SIZE_BYTES },
               msgs := [] } := by
    simpa using hq
  obtain ⟨h1, h2⟩ := writeAll_fill { queueName_ := queueName, mq_ := (sys0.next : Int) }
    to_string hfd values sys1 _ hq0 hfit (by simp [hcount])
  refine ⟨by rw [h1, hcount], by rw [h2]; simp, ?_⟩
  exact write_full _ to_string extra _ _ hfd h2 hextra (by simp [hcount])

/-- Witness of `mq_depth_limit`: the numbers 1 to 10 and then 42 on the queue "my_mq"
of `test_mqueue.cpp`. -/
theorem mq_depth_limit_witness :
    ([1, 2, 3, 4, 5, 6, 7, 8, 9, 10] : List Int).length = MAX_NUM_MSGS ∧
    (∀ v ∈ ([1, 2, 3, 4, 5, 6, 7, 8, 9, 10] : List Int),
      (to_string_int v).length + 1 ≤ MAX_MSG_SIZE_BYTES) ∧
    (to_string_int 42).length + 1 ≤ MAX_MSG_SIZE_BYTES ∧
    ∃ (self : NonBlockingMQ) (sys1 : MqSystem),
      NonBlockingMQ.new "my_mq" MqSystem.empty = some (self, sys1) ∧
      (self.writeAll to_string_int [1, 2, 3, 4, 5, 6, 7, 8, 9, 10] sys1).1
        = List.replicate MAX_NUM_MSGS true ∧
      Option.map MessageQueue.msgs
          ((self.writeAll to_string_int [1, 2, 3, 4, 5, 6, 7, 8, 9, 10] sys1).2.queues
            self.mq_.toNat)
        = some (([1, 2, 3, 4, 5, 6, 7, 8, 9, 10] : List Int).map
            (fun v => c_str (to_string_int v))) ∧
      self.write to_string_int 42 (self.writeAll to_string_int [1, 2, 3, 4, 5, 6, 7, 8, 9, 10] sys1).2
        = { status := false, stderr := ["Queue is full, message not sent."],
            sys := (self.writeAll to_string_int [1, 2, 3, 4, 5, 6, 7, 8, 9, 10] sys1).2 } :=
  ⟨by decide, by decide, by decide,
    mq_depth_limit to_string_int "my_mq" MqSystem.empty [1, 2, 3, 4, 5, 6, 7, 8, 9, 10] 42
      (by decide) (by decide) (by decide)⟩

end Mqueue
end PosixIpc

namespace PosixIpc

namespace Mqueue

theorem mq_read_empty {T : Type} (self : NonBlockingMQ) (from_string : CxxString → T)
    (buffer : List Char) (sys : MqSystem) (d : T) (q : MessageQueue) (hfd : ¬ self.mq_ < 0)
    (hq : sys.queues self.mq_.toNat = some q) (hsize : q.attr.mq_msgsize ≤ MAX_MSG_SIZE_BYTES)
    (hempty : q.msgs = []) :
    self.read from_string buffer sys d
      = ReadOutcome.threw CxxException.length_error d
          ["Queue is empty, no message received."] sys := by
  unfold NonBlockingMQ.read NonBlockingMQ.receive mq_receive
  simp only [if_neg hfd, hq, if_neg (not_lt.mpr hsize), hempty, if_true,
    stringFromBuffer_neg_one]

end Mqueue

namespace Pipe

theorem pipe_new_fresh (pipeName : String) (sys : PipeSystem)
    (habsent : sys.names.lookup pipeName = none) :
    NonBlockingPipe.new pipeName sys
      = ({ pipeName_ := pipeName, fd_ := (sys.next : Int) },
         { sys with
           names := (pipeName, sys.next) :: sys.names,
           fifos := (setObj sys.fifos sys.next []),
           next := sys.next + 1 }) := by
  unfold NonBlockingPipe.new NonBlockingPipe.pipeExists NonBlockingPipe.createPipe mkfifo
    NonBlockingPipe.openPipe
  simp [habsent, List.lookup_cons]

theorem pipe_read_empty {T : Type} (self : NonBlockingPipe) (from_string : CxxString → T)
    (buffer : List Char) (sys : PipeSystem) (d : T)
    (hempty : sys.fifos self.fd_.toNat = []) :
    self.read from_string buffer sys d = ReadOutcome.returned false d [] sys := by
  unfold NonBlockingPipe.read sys_read
  by_cases hfd : self.fd_ = -1
  · simp [hfd]
  · by_cases hneg : self.fd_ < 0
    · simp [hfd, hneg]
    · simp [hfd, hneg, hempty]

end Pipe

namespace Socket

theorem socket_new_server (sys0 : SocketSystem) :
    NonBlockingUnixSocket.new true sys0
      = some ({ socketFd_ := (sys0.next : Int), addr_ := SOCKET_PATH, isServer_ := true },
          { paths := (SOCKET_PATH, sys0.next) :: unlinkName sys0.paths SOCKET_PATH,
            sockets := (setObj sys0.sockets sys0.next (some { rcvq := [] })),
            next := sys0.next + 1,
            rcvbuf := sys0.rcvbuf }) := by
  have hne : ¬ ((sys0.next : Int) = -1) := by omega
  unfold NonBlockingUnixSocket.new socket bind unlink
  simp only [if_neg hne, lookup_unlinkName, if_true]
  simp

theorem socket_new_client (sys0 : SocketSystem) :
    NonBlockingUnixSocket.new false sys0
      = some ({ socketFd_ := (sys0.next : Int), addr_ := SOCKET_PATH, isServer_ := false },
          { sys0 with
            sockets := (setObj sys0.sockets sys0.next (some { rcvq := [] })),
            next := sys0.next + 1 }) := by
  have hne : ¬ ((sys0.next : Int) = -1) := by omega
  unfold NonBlockingUnixSocket.new socket
  simp only [if_neg hne]
  simp

theorem socket_read_empty {T : Type} (self : NonBlockingUnixSocket)
    (from_string : CxxString → T) (buffer : List Char) (sys : SocketSystem) (d : T)
    (hfd : ¬ self.socketFd_ < 0)
    (hs : sys.sockets self.socketFd_.toNat = some { rcvq := [] }) :
    self.read from_string buffer sys d
      = ReadOutcome.returned false d ["No data available to read."] sys := by
  unfold NonBlockingUnixSocket.read recvfrom
  simp [hfd, hs]

end Socket

/-- Claim C4, evaluated on the code. Read on a transport just created and never
written: the queue prints "Queue is empty, no message received." and then, instead
of returning false, builds the message from the byte count -1 and is left by
`std::length_error`; the pipe and the socket (either role) return false with the
output parameter as it was. -/
theorem read_on_never_written {T : Type} (from_string : CxxString → T) (buffer : List Char)
    (d : T) :
    (∀ (queueName : String) (sys0 : Mqueue.MqSystem),
      ∃ (self : Mqueue.NonBlockingMQ) (sys1 : Mqueue.MqSystem),
        Mqueue.NonBlockingMQ.new queueName sys0 = some (self, sys1) ∧
        self.read from_string buffer sys1 d
          = ReadOutcome.threw CxxException.length_error d
              ["Queue is empty, no message received."] sys1) ∧
    (∀ (pipeName : String) (sys0 : Pipe.PipeSystem),
      (Pipe.NonBlockingPipe.new pipeName (Pipe.unlink pipeName sys0)).1.read from_string buffer
          (Pipe.NonBlockingPipe.new pipeName (Pipe.unlink pipeName sys0)).2 d
        = ReadOutcome.returned false d []
            (Pipe.NonBlockingPipe.new pipeName (Pipe.unlink pipeName sys0)).2) ∧
    (∀ (isServer : Bool) (sys0 : Socket.SocketSystem),
      ∃ (self : Socket.NonBlockingUnixSocket) (sys1 : Socket.SocketSystem),
        Socket.NonBlockingUnixSocket.new isServer sys0 = some (self, sys1) ∧
        self.read from_string buffer sys1 d
          = ReadOutcome.returned false d ["No data available to read."] sys1) := by
  refine ⟨?_, ?_, ?_⟩
  · intro queueName sys0
    obtain ⟨sys1, hnew, hq⟩ := Mqueue.new_fresh queueName sys0
    refine ⟨_, sys1, hnew, ?_⟩
    exact Mqueue.mq_read_empty _ from_string buffer sys1 d _ (by simp) (by simpa using hq)
      (le_refl _) rfl
  · intro pipeName sys0
    have habsent : (Pipe.unlink pipeName sys0).names.lookup pipeName = none :=
      lookup_unlinkName sys0.names pipeName
    rw [Pipe.pipe_new_fresh pipeName _ habsent]
    exact Pipe.pipe_read_empty _ from_string buffer _ d (by simp [setObj])
  · intro isServer sys0
    cases isServer with
    | true =>
      refine ⟨_, _, Socket.socket_new_server sys0, ?_⟩
      exact Socket.socket_read_empty _ from_string buffer _ d (by simp) (by simp [setObj])
    | false =>
      refine ⟨_, _, Socket.socket_new_client sys0, ?_⟩
      exact Socket.socket_read_empty _ from_string buffer _ d (by simp) (by simp [setObj])

end PosixIpc

namespace PosixIpc
namespace Socket

theorem socket_write_absent {T : Type} (client : NonBlockingUnixSocket)
    (to_string : T → CxxString) (v : T) (sys : SocketSystem)
    (habsent : sys.paths.lookup SOCKET_PATH = none) :
    client.write to_string v sys
      = { status := false, stderr := ["Server socket does not exist yet."], sys := sys } := by
  unfold NonBlockingUnixSocket.write NonBlockingUnixSocket.serverExists
  simp [habsent]

theorem socket_write_sent {T : Type} (client : NonBlockingUnixSocket)
    (to_string : T → CxxString) (v : T) (sys : SocketSystem) (peer : Nat) (q : DgramSocket)
    (hfd : ¬ client.socketFd_ < 0)
    (hopen : (sys.sockets client.socketFd_.toNat).isSome = true)
    (haddr : client.addr_ = SOCKET_PATH)
    (hbound : sys.paths.lookup SOCKET_PATH = some peer)
    (hpeer : sys.sockets peer = some q)
    (hroom : queuedBytes q.rcvq + (to_string v).length ≤ sys.rcvbuf) :
    client.write to_string v sys
      = { status := true, stderr := [],
          sys := { sys with
            sockets := (setObj sys.sockets peer (some { rcvq := q.rcvq ++ [to_string v] })) } } := by
  obtain ⟨own, hown⟩ := Option.isSome_iff_exists.mp hopen
  unfold NonBlockingUnixSocket.write NonBlockingUnixSocket.serverExists sendto
  simp only [hbound, Option.isSome_some, Bool.not_true, Bool.false_eq_true, if_false, if_neg hfd,
    hown, haddr, hpeer, gt_iff_lt]
  rw [if_neg (by omega), if_neg (by omega)]

theorem socket_write_status {T : Type} (client : NonBlockingUnixSocket)
    (to_string : T → CxxString) (v : T) (sys : SocketSystem) (peer : Nat) (q : DgramSocket)
    (haddr : client.addr_ = SOCKET_PATH)
    (hbound : sys.paths.lookup SOCKET_PATH = some peer)
    (hpeer : sys.sockets peer = some q)
    (hsent : (client.write to_string v sys).status = true) :
    (client.write to_string v sys).sys
      = { sys with
          sockets := (setObj sys.sockets peer (some { rcvq := q.rcvq ++ [to_string v] })) } := by
  by_cases hfd : client.socketFd_ < 0
  · exfalso
    revert hsent
    unfold NonBlockingUnixSocket.write NonBlockingUnixSocket.serverExists sendto
    simp [hbound, hfd]
  · cases hown : sys.sockets client.socketFd_.toNat with
    | none =>
      exfalso
      revert hsent
      unfold NonBlockingUnixSocket.write NonBlockingUnixSocket.serverExists sendto
      simp [hbound, hfd, hown]
    | some own =>
      by_cases hroom : queuedBytes q.rcvq + (to_string v).length ≤ sys.rcvbuf
      · rw [socket_write_sent client to_string v sys peer q hfd (by simp [hown]) haddr hbound
          hpeer hroom]
      · exfalso
        revert hsent
        unfold NonBlockingUnixSocket.write NonBlockingUnixSocket.serverExists sendto
        simp only [hbound, Option.isSome_some, Bool.not_true, Bool.false_eq_true, if_false,
          if_neg hfd, hown, haddr, hpeer, gt_iff_lt]
        by_cases hbig : sys.rcvbuf < (to_string v).length
        · simp [hbig]
        · rw [if_neg hbig, if_pos (by omega)]
          simp

theorem socket_read_first (self : NonBlockingUnixSocket) (buffer : List Char)
    (sys : SocketSystem) (s d : CxxString) (rest : List (List Char))
    (hfd : ¬ self.socketFd_ < 0)
    (hs : sys.sockets self.socketFd_.toNat = some { rcvq := s :: rest })
    (hlen : s.length ≤ BUFFER_SIZE) :
    self.read NonBlockingUnixSocket.from_string_string buffer sys d
      = ReadOutcome.returned true s []
          { sys with sockets := (setObj sys.sockets self.socketFd_.toNat (some { rcvq := rest })) } := by
  have htake : s.take BUFFER_SIZE = s := List.take_of_length_le hlen
  have hmin : min s.length BUFFER_SIZE = s.length := Nat.min_eq_left hlen
  unfold NonBlockingUnixSocket.read recvfrom
  simp only [if_neg hfd, hs, htake, hmin]
  rw [stringFromBuffer_take s _ (by unfold BUFFER_SIZE at hlen; exact hlen)]
  rfl

/-- Claim C5. Socket peer presence: with no entry at `SOCKET_PATH`, `write` on any
handle returns false with the line "Server socket does not exist yet." and leaves the
system untouched (no `sendto`); once a server is constructed, a write from an open
client handle returns true when the encoded value fits the receive queue of the
server, and more generally whenever the path is bound to an open socket whose receive
queue has room for the datagram. -/
theorem socket_peer_presence {T : Type} (to_string : T → CxxString) (v : T) :
    (∀ (client : NonBlockingUnixSocket) (sys : SocketSystem),
      sys.paths.lookup SOCKET_PATH = none →
      client.write to_string v sys
        = { status := false, stderr := ["Server socket does not exist yet."], sys := sys }) ∧
    (∀ (client : NonBlockingUnixSocket) (sys : SocketSystem),
      ¬ client.socketFd_ < 0 → (sys.sockets client.socketFd_.toNat).isSome = true →
      client.addr_ = SOCKET_PATH → (to_string v).length ≤ sys.rcvbuf →
      ∃ (server : NonBlockingUnixSocket) (sys1 : SocketSystem),
        NonBlockingUnixSocket.new true sys = some (server, sys1) ∧
        (client.write to_string v sys1).status = true ∧
        (client.write to_string v sys1).stderr = []) ∧
    (∀ (client : NonBlockingUnixSocket) (sys : SocketSystem) (peer : Nat) (q : DgramSocket),
      ¬ client.socketFd_ < 0 → (sys.sockets client.socketFd_.toNat).isSome = true →
      client.addr_ = SOCKET_PATH → sys.paths.lookup SOCKET_PATH = some peer →
      sys.sockets peer = some q → queuedBytes q.rcvq + (to_string v).length ≤ sys.rcvbuf →
      (client.write to_string v sys).status = true ∧
      (client.write to_string v sys).stderr = []) := by
  refine ⟨fun client sys h => socket_write_absent client to_string v sys h, ?_, ?_⟩
  · intro client sys hfd hopen haddr hroom
    refine ⟨_, _, socket_new_server sys, ?_⟩
    have hopen1 : ((setObj sys.sockets sys.next (some ({ rcvq := [] } : DgramSocket)))
        client.socketFd_.toNat).isSome = true := by
      unfold setObj
      split_ifs
      · rfl
      · exact hopen
    have hw := socket_write_sent client to_string v
      { paths := (SOCKET_PATH, sys.next) :: unlinkName sys.paths SOCKET_PATH,
        sockets := (setObj sys.sockets sys.next (some { rcvq := [] })),
        next := sys.next + 1,
        rcvbuf := sys.rcvbuf } sys.next { rcvq := [] } hfd hopen1 haddr
      (by simp [List.lookup_cons]) (by simp [setObj]) (by simpa [queuedBytes] using hroom)
    rw [hw]
    exact ⟨rfl, rfl⟩
  · intro client sys peer q hfd hopen haddr hbound hpeer hroom
    rw [socket_write_sent client to_string v sys peer q hfd hopen haddr hbound hpeer hroom]
    exact ⟨rfl, rfl⟩

/-- Witness of `socket_peer_presence`: the client of `test_socket.cpp` and its message,
before and after the server is constructed. -/
theorem socket_peer_presence_witness :
    (test_socket_client_system.paths.lookup SOCKET_PATH = none ∧
      test_socket_client.write NonBlockingUnixSocket.to_string_string
          "Hello, UNIX Domain Socket!".toList test_socket_client_system
        = { status := false, stderr := ["Server socket does not exist yet."],
            sys := test_socket_client_system }) ∧
    ((¬ test_socket_client.socketFd_ < 0 ∧
        (test_socket_client_system.sockets test_socket_client.socketFd_.toNat).isSome = true ∧
        test_socket_client.addr_ = SOCKET_PATH ∧
        (NonBlockingUnixSocket.to_string_string "Hello, UNIX Domain Socket!".toList).length
          ≤ test_socket_client_system.rcvbuf) ∧
      ∃ (server : NonBlockingUnixSocket) (sys1 : SocketSystem),
        NonBlockingUnixSocket.new true test_socket_client_system = some (server, sys1) ∧
        (test_socket_client.write NonBlockingUnixSocket.to_string_string
          "Hello, UNIX Domain Socket!".toList sys1).status = true ∧
        (test_socket_client.write NonBlockingUnixSocket.to_string_string
          "Hello, UNIX Domain Socket!".toList sys1).stderr = []) ∧
    ((test_socket_system.paths.lookup SOCKET_PATH = some 1 ∧
        test_socket_system.sockets 1 = some { rcvq := [] } ∧
        queuedBytes ({ rcvq := [] } : DgramSocket).rcvq
          + (NonBlockingUnixSocket.to_string_string "Hello, UNIX Domain Socket!".toList).length
          ≤ test_socket_system.rcvbuf) ∧
      (test_socket_client.write NonBlockingUnixSocket.to_string_string
        "Hello, UNIX Domain Socket!".toList test_socket_system).status = true ∧
      (test_socket_client.write NonBlockingUnixSocket.to_string_string
        "Hello, UNIX Domain Socket!".toList test_socket_system).stderr = []) :=
  ⟨⟨by decide,
    (socket_peer_presence NonBlockingUnixSocket.to_string_string
      "Hello, UNIX Domain Socket!".toList).1 test_socket_client test_socket_client_system
      (by decide)⟩,
   ⟨⟨by decide, by decide, rfl, by decide⟩,
    (socket_peer_presence NonBlockingUnixSocket.to_string_string
      "Hello, UNIX Domain Socket!".toList).2.1 test_socket_client test_socket_client_system
      (by decide) (by decide) rfl (by decide)⟩,
   ⟨⟨by decide, by decide, by decide⟩,
    (socket_peer_presence NonBlockingUnixSocket.to_string_string
      "Hello, UNIX Domain Socket!".toList).2.2 test_socket_client test_socket_system 1
      { rcvq := [] } (by decide) (by decide) rfl (by decide) (by decide) (by decide)⟩⟩

/-- Claim C6. Socket round trip: with the server bound to `SOCKET_PATH` and nothing
pending in its receive queue, for every string of at most 4096 characters (any
characters, spaces included), when the client's `write` returns true the server's
`read` that follows returns true with exactly that string in the output. -/
theorem socket_round_trip (client server : NonBlockingUnixSocket) (sys : SocketSystem)
    (s d : CxxString) (buffer : List Char)
    (hfd : ¬ server.socketFd_ < 0)
    (hbound : sys.paths.lookup SOCKET_PATH = some server.socketFd_.toNat)
    (hpending : sys.sockets server.socketFd_.toNat = some { rcvq := [] })
    (haddr : client.addr_ = SOCKET_PATH)
    (hlen : s.length ≤ BUFFER_SIZE)
    (hsent : (client.write NonBlockingUnixSocket.to_string_string s sys).status = true) :
    ∃ sys2 : SocketSystem,
      server.read NonBlockingUnixSocket.from_string_string buffer
          (client.write NonBlockingUnixSocket.to_string_string s sys).sys d
        = ReadOutcome.returned true s [] sys2 := by
  have hsys := socket_write_status client NonBlockingUnixSocket.to_string_string s sys _ _
    haddr hbound hpending hsent
  rw [hsys]
  refine ⟨_, socket_read_first server buffer _ s d [] hfd ?_ hlen⟩
  simp [setObj, NonBlockingUnixSocket.to_string_string, ostreamPutString]

/-- Witness of `socket_round_trip`: client, server and message of `test_socket.cpp`. -/
theorem socket_round_trip_witness :
    (¬ test_socket_server.socketFd_ < 0 ∧
      test_socket_system.paths.lookup SOCKET_PATH = some test_socket_server.socketFd_.toNat ∧
      test_socket_system.sockets test_socket_server.socketFd_.toNat = some { rcvq := [] } ∧
      test_socket_client.addr_ = SOCKET_PATH ∧
      "Hello, UNIX Domain Socket!".toList.length ≤ BUFFER_SIZE ∧
      (test_socket_client.write NonBlockingUnixSocket.to_string_string
        "Hello, UNIX Domain Socket!".toList test_socket_system).status = true) ∧
    ∃ sys2 : SocketSystem,
      test_socket_server.read NonBlockingUnixSocket.from_string_string []
          (test_socket_client.write NonBlockingUnixSocket.to_string_string
            "Hello, UNIX Domain Socket!".toList test_socket_system).sys []
        = ReadOutcome.returned true "Hello, UNIX Domain Socket!".toList [] sys2 :=
  ⟨⟨by decide, by decide, by decide, rfl, by decide, by decide⟩,
   socket_round_trip test_socket_client test_socket_server test_socket_system
     "Hello, UNIX Domain Socket!".toList [] [] (by decide) (by decide) (by decide) rfl
     (by decide) (by decide)⟩

/-- The constructor calls of `test_socket.cpp`, client first, succeed and yield the
handles and systems named above. -/
theorem test_socket_constructed :
    NonBlockingUnixSocket.new false (SocketSystem.empty 212992)
      = some (test_socket_client, test_socket_client_system) ∧
    NonBlockingUnixSocket.new true test_socket_client_system
      = some (test_socket_server, test_socket_system) :=
  ⟨rfl, rfl⟩

end Socket
end PosixIpc

namespace PosixIpc

namespace Pipe

theorem pipe_new_handle (pipeName : String) (sys : PipeSystem) :
    ∃ id : Nat, (NonBlockingPipe.new pipeName sys).1 = { pipeName_ := pipeName, fd_ := (id : Int) } := by
  cases hl : sys.names.lookup pipeName with
  | none => exact ⟨sys.next, by rw [pipe_new_fresh pipeName sys hl]⟩
  | some id =>
    refine ⟨id, ?_⟩
    unfold NonBlockingPipe.new NonBlockingPipe.pipeExists NonBlockingPipe.openPipe
    simp [hl]

theorem pipe_destroy_unlinks (self : NonBlockingPipe) (sys : PipeSystem) (id : Nat)
    (hfd : self.fd_ = (id : Int)) :
    (self.destroy sys).names.lookup self.pipeName_ = none ∧
    (self.destroy sys).next = sys.next := by
  have hne : self.fd_ ≠ -1 := by omega
  unfold NonBlockingPipe.destroy NonBlockingPipe.closePipe
  rw [if_pos hne]
  exact ⟨lookup_unlinkName sys.names self.pipeName_, rfl⟩

theorem pipe_write_whole {T : Type} (self : NonBlockingPipe) (to_string : T → CxxString)
    (data : T) (sys : PipeSystem) (hfd : ¬ self.fd_ < 0)
    (hroom : (sys.fifos self.fd_.toNat).length + (to_string data).length ≤ sys.capacity) :
    (self.write to_string data sys).status = true ∧
    (self.write to_string data sys).sys.fifos self.fd_.toNat
      = sys.fifos self.fd_.toNat ++ to_string data := by
  have hne : self.fd_ ≠ -1 := by omega
  unfold NonBlockingPipe.write sys_write
  simp only [if_pos hne, if_neg hfd]
  by_cases h0 : (to_string data).length = 0
  · have hnil : to_string data = [] := List.length_eq_zero.mp h0
    simp [h0, hnil]
  · rw [if_neg h0]
    by_cases hsmall : (to_string data).length ≤ PIPE_BUF
    · rw [if_pos hsmall, if_pos (by omega)]
      simp [setObj]
    · rw [if_neg hsmall, if_neg (by omega)]
      have hmin : min (to_string data).length (sys.capacity - (sys.fifos self.fd_.toNat).length)
          = (to_string data).length := Nat.min_eq_left (by omega)
      have htake : (to_string data).take (sys.capacity - (sys.fifos self.fd_.toNat).length)
          = to_string data := List.take_of_length_le (by omega)
      simp [setObj, hmin, htake]

end Pipe

namespace Shm

theorem shm_new_fresh (name : String) (sys : ShmSystem)
    (habsent : sys.names.lookup name = none) :
    NonBlockingSHM.new name sys
      = some ({ shmName_ := name, shmFd_ := (sys.next : Int), shmPtr_ := some sys.next },
          { names := (name, sys.next) :: sys.names,
            objects := (setObj (setObj sys.objects sys.next []) sys.next
              (List.replicate SHM_SIZE NUL)),
            next := sys.next + 1 }) := by
  have hne : ¬ ((sys.next : Int) = -1) := by omega
  have hsz : ¬ ((0 : Int) = (SHM_SIZE : Int)) := by unfold SHM_SIZE; omega
  unfold NonBlockingSHM.new shm_open
  simp only [habsent, if_neg hne, NonBlockingSHM.shmSize, Int.toNat_ofNat, setObj, if_true,
    List.length_nil, Nat.cast_zero, ne_eq, hsz, not_false_eq_true, ftruncate, List.take_nil,
    List.nil_append, Nat.sub_zero]

theorem shm_new_handle (name : String) (sys : ShmSystem) :
    ∃ (id : Nat) (sys1 : ShmSystem),
      NonBlockingSHM.new name sys
        = some ({ shmName_ := name, shmFd_ := (id : Int), shmPtr_ := some id }, sys1) := by
  cases hl : sys.names.lookup name with
  | none => exact ⟨sys.next, _, shm_new_fresh name sys hl⟩
  | some id =>
    have hne : ¬ ((id : Int) = -1) := by omega
    refine ⟨id, if NonBlockingSHM.shmSize (id : Int) sys ≠ (SHM_SIZE : Int)
      then ftruncate (id : Int) SHM_SIZE sys else sys, ?_⟩
    unfold NonBlockingSHM.new shm_open
    simp only [hl, if_neg hne, Int.toNat_ofNat]

end Shm

/-- Claim C7. Destruction removes the named resource: a pipe or shared-memory handle
constructed on a name (in any system `sysA`) and destroyed (in any later system
`sysB`) leaves the name unbound, and a construction on that name that follows takes
the create path: the new handle refers to a new object, bound to the name, which is an
empty FIFO, respectively a region of 4096 zero bytes. -/
theorem destroy_then_construct_fresh (name : String) :
    (∀ sysA sysB : Pipe.PipeSystem,
      ((Pipe.NonBlockingPipe.new name sysA).1.destroy sysB).names.lookup name = none ∧
      (Pipe.NonBlockingPipe.new name
          ((Pipe.NonBlockingPipe.new name sysA).1.destroy sysB)).1.fd_ = (sysB.next : Int) ∧
      (Pipe.NonBlockingPipe.new name
          ((Pipe.NonBlockingPipe.new name sysA).1.destroy sysB)).2.names.lookup name
        = some sysB.next ∧
      (Pipe.NonBlockingPipe.new name
          ((Pipe.NonBlockingPipe.new name sysA).1.destroy sysB)).2.fifos sysB.next = []) ∧
    (∀ sysA sysB : Shm.ShmSystem,
      ∃ (h : Shm.NonBlockingSHM) (sysA1 : Shm.ShmSystem),
        Shm.NonBlockingSHM.new name sysA = some (h, sysA1) ∧
        (h.destroy sysB).names.lookup name = none ∧
        ∃ (h2 : Shm.NonBlockingSHM) (sysC : Shm.ShmSystem),
          Shm.NonBlockingSHM.new name (h.destroy sysB) = some (h2, sysC) ∧
          h2.isOpen = true ∧
          h2.shmPtr_ = some sysB.next ∧
          sysC.names.lookup name = some sysB.next ∧
          sysC.objects sysB.next = List.replicate Shm.SHM_SIZE NUL) := by
  constructor
  · intro sysA sysB
    obtain ⟨id, hh⟩ := Pipe.pipe_new_handle name sysA
    rw [hh]
    obtain ⟨hgone, hnext⟩ := Pipe.pipe_destroy_unlinks
      { pipeName_ := name, fd_ := (id : Int) } sysB id rfl
    refine ⟨hgone, ?_⟩
    rw [Pipe.pipe_new_fresh name _ hgone, hnext]
    simp [setObj, List.lookup_cons]
  · intro sysA sysB
    obtain ⟨id, sysA1, hnew⟩ := Shm.shm_new_handle name sysA
    have hgone : (Shm.NonBlockingSHM.destroy
        { shmName_ := name, shmFd_ := (id : Int), shmPtr_ := some id } sysB).names.lookup name
        = none := lookup_unlinkName sysB.names name
    refine ⟨_, sysA1, hnew, hgone, _, _, Shm.shm_new_fresh name _ hgone, ?_, ?_, ?_, ?_⟩
    · have hne : ¬ ((sysB.next : Int) = -1) := by omega
      simp [Shm.NonBlockingSHM.isOpen, Shm.NonBlockingSHM.destroy, Shm.shm_unlink, hne]
    · rfl
    · simp [List.lookup_cons, Shm.NonBlockingSHM.destroy, Shm.shm_unlink]
    · simp [setObj, Shm.NonBlockingSHM.destroy, Shm.shm_unlink]

end PosixIpc

namespace PosixIpc

/-- The constructor calls of the publishers of `test_mqueue.cpp` and `test_pipe.cpp`
succeed and yield the handles and systems named above. -/
theorem test_publishers_constructed :
    Mqueue.NonBlockingMQ.new "my_mq" Mqueue.MqSystem.empty
      = some (Mqueue.test_mq_publisher, Mqueue.test_mq_publisher_system) ∧
    Pipe.NonBlockingPipe.new "/tmp/my_pipe" (Pipe.PipeSystem.empty 65536)
      = (Pipe.test_pipe_handle, Pipe.test_pipe_system) :=
  ⟨rfl, rfl⟩

theorem over_size_text_length :
    (List.replicate 4097 'a').length = 4097 := List.length_replicate 4097 'a'

theorem over_size_accepted_of_length (txt : CxxString) (hlen : txt.length = 4097) :
    (Pipe.MAX_MSG_SIZE_BYTES < (Pipe.to_string_string txt).length ∧
      (Pipe.test_pipe_handle.write Pipe.to_string_string txt Pipe.test_pipe_system).status
        = true ∧
      (Pipe.test_pipe_handle.write Pipe.to_string_string txt Pipe.test_pipe_system).sys.fifos 0
        = txt) ∧
    (Socket.BUFFER_SIZE < (Socket.NonBlockingUnixSocket.to_string_string txt).length ∧
      (Socket.test_socket_client.write Socket.NonBlockingUnixSocket.to_string_string txt
        Socket.test_socket_system).status = true ∧
      (Socket.test_socket_client.write Socket.NonBlockingUnixSocket.to_string_string txt
        Socket.test_socket_system).sys.sockets 1 = some { rcvq := [txt] }) := by
  constructor
  · have h0 : Pipe.test_pipe_system.fifos Pipe.test_pipe_handle.fd_.toNat = [] := rfl
    have hc : Pipe.test_pipe_system.capacity = 65536 := rfl
    have hw := Pipe.pipe_write_whole Pipe.test_pipe_handle Pipe.to_string_string txt
      Pipe.test_pipe_system (by decide)
      (by
        rw [h0, hc]
        simp only [Pipe.to_string_string, ostreamPutString, hlen, List.length_nil]
        omega)
    refine ⟨?_, hw.1, ?_⟩
    · simp only [Pipe.to_string_string, ostreamPutString, hlen, Pipe.MAX_MSG_SIZE_BYTES]
      omega
    · have h2 := hw.2
      rw [h0] at h2
      exact h2
  · have hc : Socket.test_socket_system.rcvbuf = 212992 := rfl
    have hw := Socket.socket_write_sent Socket.test_socket_client
      Socket.NonBlockingUnixSocket.to_string_string txt
      Socket.test_socket_system 1 { rcvq := [] } (by decide) (by decide) rfl (by decide)
      (by decide)
      (by
        rw [hc]
        simp only [Socket.NonBlockingUnixSocket.to_string_string, ostreamPutString, hlen,
          Socket.queuedBytes, List.map_nil, List.sum_nil]
        omega)
    refine ⟨?_, by rw [hw], ?_⟩
    · simp only [Socket.NonBlockingUnixSocket.to_string_string, ostreamPutString, hlen,
        Socket.BUFFER_SIZE]
      omega
    · rw [hw]
      simp [setObj, Socket.NonBlockingUnixSocket.to_string_string, ostreamPutString]

/-- Claim C8 fails as stated. A text of 4097 characters, longer than the maximum
message size, is handed to the channel and accepted whole: `write` returns true on
the pipe of `test_pipe.cpp` (the FIFO then holds the 4097 bytes) and on the socket
of `test_socket.cpp` (the datagram of 4097 bytes is queued at the server). -/
theorem over_size_write_accepted :
    (Pipe.MAX_MSG_SIZE_BYTES < (Pipe.to_string_string (List.replicate 4097 'a')).length ∧
      (Pipe.test_pipe_handle.write Pipe.to_string_string (List.replicate 4097 'a')
        Pipe.test_pipe_system).status = true ∧
      (Pipe.test_pipe_handle.write Pipe.to_string_string (List.replicate 4097 'a')
        Pipe.test_pipe_system).sys.fifos 0 = List.replicate 4097 'a') ∧
    (Socket.BUFFER_SIZE
        < (Socket.NonBlockingUnixSocket.to_string_string (List.replicate 4097 'a')).length ∧
      (Socket.test_socket_client.write Socket.NonBlockingUnixSocket.to_string_string
        (List.replicate 4097 'a') Socket.test_socket_system).status = true ∧
      (Socket.test_socket_client.write Socket.NonBlockingUnixSocket.to_string_string
        (List.replicate 4097 'a') Socket.test_socket_system).sys.sockets 1
        = some { rcvq := [List.replicate 4097 'a'] }) :=
  over_size_accepted_of_length (List.replicate 4097 'a') over_size_text_length

/-- Claim C8 as amended. What each `write` does with the size of the encoded text:
shared memory checks it (with `size + 1 > 4096` an open handle returns false with the
line "Message size exceeds shared memory size." and touches nothing); the queue does
not check, `mq_send` refuses a message of `size + 1 > 4096` bytes with `EMSGSIZE` and
`write` returns false through the `perror` branch; pipe and socket do not check, a
text of any size is handed to `::write` or `sendto`, and `write` returns true when the
channel has room for all of it, which is then in the channel whole. -/
theorem capacity_handling {T : Type} (to_string : T → CxxString) (data : T) :
    (∀ (self : Shm.NonBlockingSHM) (sys : Shm.ShmSystem),
      self.isOpen = true → (to_string data).length + 1 > Shm.SHM_SIZE →
      self.write to_string data sys
        = { status := false, stderr := ["Message size exceeds shared memory size."],
            sys := sys }) ∧
    (∀ (self : Mqueue.NonBlockingMQ) (sys : Mqueue.MqSystem) (q : Mqueue.MessageQueue),
      ¬ self.mq_ < 0 → sys.queues self.mq_.toNat = some q →
      q.attr.mq_msgsize = Mqueue.MAX_MSG_SIZE_BYTES →
      (to_string data).length + 1 > Mqueue.MAX_MSG_SIZE_BYTES →
      self.write to_string data sys
        = { status := false, stderr := [perror "mq_send" Errno.EMSGSIZE], sys := sys }) ∧
    (∀ (self : Pipe.NonBlockingPipe) (sys : Pipe.PipeSystem),
      ¬ self.fd_ < 0 →
      (sys.fifos self.fd_.toNat).length + (to_string data).length ≤ sys.capacity →
      (self.write to_string data sys).status = true ∧
      (self.write to_string data sys).sys.fifos self.fd_.toNat
        = sys.fifos self.fd_.toNat ++ to_string data) ∧
    (∀ (self : Socket.NonBlockingUnixSocket) (sys : Socket.SocketSystem) (peer : Nat)
        (q : Socket.DgramSocket),
      ¬ self.socketFd_ < 0 → (sys.sockets self.socketFd_.toNat).isSome = true →
      self.addr_ = Socket.SOCKET_PATH → sys.paths.lookup Socket.SOCKET_PATH = some peer →
      sys.sockets peer = some q →
      Socket.queuedBytes q.rcvq + (to_string data).length ≤ sys.rcvbuf →
      (self.write to_string data sys).status = true ∧
      (self.write to_string data sys).sys.sockets peer
        = some { rcvq := q.rcvq ++ [to_string data] }) := by
  refine ⟨?_, ?_, ?_, ?_⟩
  · intro self sys hopen hlong
    unfold Shm.NonBlockingSHM.write
    simp [hopen, hlong]
  · intro self sys q hfd hq hsize hlong
    exact Mqueue.write_too_long self to_string data sys q hfd hq (by rw [hsize]; exact hlong)
  · intro self sys hfd hroom
    exact Pipe.pipe_write_whole self to_string data sys hfd hroom
  · intro self sys peer q hfd hopen haddr hbound hpeer hroom
    rw [Socket.socket_write_sent self to_string data sys peer q hfd hopen haddr hbound hpeer
      hroom]
    exact ⟨rfl, by simp [setObj]⟩

end PosixIpc

namespace PosixIpc

theorem over_size_encoded_length :
    (ostreamPutString (List.replicate 4097 'a')).length = 4097 := List.length_replicate 4097 'a'

/-- Witness of `capacity_handling`: a text of 4097 characters on the handles of the
four test programs. -/
theorem capacity_handling_witness :
    ((Shm.test_shm_handle.isOpen = true ∧
        (ostreamPutString (List.replicate 4097 'a')).length + 1 > Shm.SHM_SIZE) ∧
      Shm.test_shm_handle.write ostreamPutString (List.replicate 4097 'a') Shm.test_shm_system
        = { status := false, stderr := ["Message size exceeds shared memory size."],
            sys := Shm.test_shm_system }) ∧
    ((¬ Mqueue.test_mq_publisher.mq_ < 0 ∧
        Mqueue.test_mq_publisher_system.queues Mqueue.test_mq_publisher.mq_.toNat
          = some { attr := { mq_maxmsg := 10, mq_msgsize := 4096 }, msgs := [] } ∧
        ({ attr := { mq_maxmsg := 10, mq_msgsize := 4096 }, msgs := [] } :
          Mqueue.MessageQueue).attr.mq_msgsize = Mqueue.MAX_MSG_SIZE_BYTES ∧
        (ostreamPutString (List.replicate 4097 'a')).length + 1 > Mqueue.MAX_MSG_SIZE_BYTES) ∧
      Mqueue.test_mq_publisher.write ostreamPutString (List.replicate 4097 'a')
          Mqueue.test_mq_publisher_system
        = { status := false, stderr := [perror "mq_send" Errno.EMSGSIZE],
            sys := Mqueue.test_mq_publisher_system }) ∧
    ((¬ Pipe.test_pipe_handle.fd_ < 0 ∧
        (Pipe.test_pipe_system.fifos Pipe.test_pipe_handle.fd_.toNat).length
          + (ostreamPutString (List.replicate 4097 'a')).length
          ≤ Pipe.test_pipe_system.capacity) ∧
      (Pipe.test_pipe_handle.write ostreamPutString (List.replicate 4097 'a')
        Pipe.test_pipe_system).status = true ∧
      (Pipe.test_pipe_handle.write ostreamPutString (List.replicate 4097 'a')
        Pipe.test_pipe_system).sys.fifos Pipe.test_pipe_handle.fd_.toNat
        = Pipe.test_pipe_system.fifos Pipe.test_pipe_handle.fd_.toNat
            ++ ostreamPutString (List.replicate 4097 'a')) ∧
    ((¬ Socket.test_socket_client.socketFd_ < 0 ∧
        (Socket.test_socket_system.sockets Socket.test_socket_client.socketFd_.toNat).isSome
          = true ∧
        Socket.test_socket_client.addr_ = Socket.SOCKET_PATH ∧
        Socket.test_socket_system.paths.lookup Socket.SOCKET_PATH = some 1 ∧
        Socket.test_socket_system.sockets 1 = some { rcvq := [] } ∧
        Socket.queuedBytes ({ rcvq := [] } : Socket.DgramSocket).rcvq
          + (ostreamPutString (List.replicate 4097 'a')).length
          ≤ Socket.test_socket_system.rcvbuf) ∧
      (Socket.test_socket_client.write ostreamPutString (List.replicate 4097 'a')
        Socket.test_socket_system).status = true ∧
      (Socket.test_socket_client.write ostreamPutString (List.replicate 4097 'a')
        Socket.test_socket_system).sys.sockets 1
        = some { rcvq := ({ rcvq := [] } : Socket.DgramSocket).rcvq
            ++ [ostreamPutString (List.replicate 4097 'a')] }) :=
  have hshm : (ostreamPutString (List.replicate 4097 'a')).length + 1 > Shm.SHM_SIZE := by
    rw [over_size_encoded_length]; decide
  have hmq : (ostreamPutString (List.replicate 4097 'a')).length + 1
      > Mqueue.MAX_MSG_SIZE_BYTES := by
    rw [over_size_encoded_length]; decide
  have hpipe : (Pipe.test_pipe_system.fifos Pipe.test_pipe_handle.fd_.toNat).length
      + (ostreamPutString (List.replicate 4097 'a')).length
      ≤ Pipe.test_pipe_system.capacity := by
    rw [over_size_encoded_length]; decide
  have hsock : Socket.queuedBytes ({ rcvq := [] } : Socket.DgramSocket).rcvq
      + (ostreamPutString (List.replicate 4097 'a')).length
      ≤ Socket.test_socket_system.rcvbuf := by
    rw [over_size_encoded_length]; decide
  ⟨⟨⟨by decide, hshm⟩,
    (capacity_handling ostreamPutString (List.replicate 4097 'a')).1
      Shm.test_shm_handle Shm.test_shm_system (by decide) hshm⟩,
   ⟨⟨by decide, by decide, rfl, hmq⟩,
    (capacity_handling ostreamPutString (List.replicate 4097 'a')).2.1
      Mqueue.test_mq_publisher Mqueue.test_mq_publisher_system
      { attr := { mq_maxmsg := 10, mq_msgsize := 4096 }, msgs := [] }
      (by decide) (by decide) rfl hmq⟩,
   ⟨⟨by decide, hpipe⟩,
    (capacity_handling ostreamPutString (List.replicate 4097 'a')).2.2.1
      Pipe.test_pipe_handle Pipe.test_pipe_system (by decide) hpipe⟩,
   ⟨⟨by decide, by decide, rfl, by decide, by decide, hsock⟩,
    (capacity_handling ostreamPutString (List.replicate 4097 'a')).2.2.2
      Socket.test_socket_client Socket.test_socket_system 1 { rcvq := [] }
      (by decide) (by decide) rfl (by decide) (by decide) hsock⟩⟩

/-- Claim C9, evaluated on the code. The codec of the queue header and of the pipe
header decodes a string with `>>`, which stops at white space: "a b" comes back as
"a", " x" as "x"; only the empty string and strings without white space come back
whole.  The codecs of the shared-memory and socket classes have the overload that
returns the string unmodified and are the identity on every string. -/
theorem codec_on_text :
    Mqueue.from_string_string (Mqueue.to_string_string "a b".toList) = "a".toList ∧
    Pipe.from_string_string (Pipe.to_string_string "a b".toList) = "a".toList ∧
    Mqueue.from_string_string (Mqueue.to_string_string " x".toList) = "x".toList ∧
    Pipe.from_string_string (Pipe.to_string_string " x".toList) = "x".toList ∧
    Mqueue.from_string_string (Mqueue.to_string_string []) = [] ∧
    Pipe.from_string_string (Pipe.to_string_string []) = [] ∧
    (∀ s : CxxString,
      Shm.NonBlockingSHM.from_string_string (Shm.NonBlockingSHM.to_string_string s) = s) ∧
    (∀ s : CxxString,
      Socket.NonBlockingUnixSocket.from_string_string
        (Socket.NonBlockingUnixSocket.to_string_string s) = s) :=
  ⟨by decide, by decide, by decide, by decide, by decide, by decide, fun _ => rfl, fun _ => rfl⟩

theorem mq_read_status {T : Type} (self : Mqueue.NonBlockingMQ) (from_string : CxxString → T)
    (buffer : List Char) (sys : Mqueue.MqSystem) (d : T) :
    (self.read from_string buffer sys d).status? = none ∨
    (self.read from_string buffer sys d).status? = some true := by
  cases hr : Mqueue.mq_receive self.mq_ Mqueue.MAX_MSG_SIZE_BYTES sys with
  | error e =>
    left
    simp only [Mqueue.NonBlockingMQ.read, Mqueue.NonBlockingMQ.receive, hr,
      stringFromBuffer_neg_one, ReadOutcome.status?]
  | ok got =>
    obtain ⟨m, sys1⟩ := got
    simp only [Mqueue.NonBlockingMQ.read, Mqueue.NonBlockingMQ.receive, hr]
    cases stringFromBuffer (m ++ buffer.drop m.length) (toSizeT (m.length : Int)) with
    | error ex => left; simp only [ReadOutcome.status?]
    | ok message => right; simp only [ReadOutcome.status?]

theorem pipe_read_frame {T : Type} (self : Pipe.NonBlockingPipe) (from_string : CxxString → T)
    (buffer : List Char) (sys : Pipe.PipeSystem) (d : T) :
    (self.read from_string buffer sys d).status? = some true ∨
    (self.read from_string buffer sys d).data = d := by
  unfold Pipe.NonBlockingPipe.read
  by_cases hfd : self.fd_ ≠ -1
  · simp only [if_pos hfd]
    by_cases hpos : (Pipe.sys_read self.fd_ Pipe.MAX_MSG_SIZE_BYTES sys).1 > 0
    · simp only [if_pos hpos]
      cases stringFromBuffer _ _ with
      | error ex => right; simp only [ReadOutcome.data]
      | ok strData => left; simp only [ReadOutcome.status?]
    · right
      simp only [if_neg hpos, ReadOutcome.data]
  · right
    simp only [if_neg hfd, ReadOutcome.data]

theorem socket_read_frame {T : Type} (self : Socket.NonBlockingUnixSocket)
    (from_string : CxxString → T) (buffer : List Char) (sys : Socket.SocketSystem) (d : T) :
    (self.read from_string buffer sys d).status? = some true ∨
    (self.read from_string buffer sys d).data = d := by
  unfold Socket.NonBlockingUnixSocket.read
  cases Socket.recvfrom self.socketFd_ Socket.BUFFER_SIZE sys with
  | error e =>
    right
    by_cases he : e = Errno.EAGAIN
    · simp only [if_pos he, ReadOutcome.data]
    · simp only [if_neg he, ReadOutcome.data]
  | ok got =>
    simp only
    cases stringFromBuffer _ _ with
    | error ex => right; simp only [ReadOutcome.data]
    | ok message => left; simp only [ReadOutcome.status?]

theorem shm_read_frame {T : Type} (self : Shm.NonBlockingSHM) (from_string : CxxString → T)
    (sys : Shm.ShmSystem) (d : T) :
    (self.read from_string sys d).status? = some true ∨
    (self.read from_string sys d).data = d := by
  unfold Shm.NonBlockingSHM.read
  by_cases ho : (!self.isOpen) = true
  · right
    simp only [if_pos ho, ReadOutcome.data]
  · simp only [if_neg ho]
    cases self.shmPtr_ with
    | none => right; simp only [ReadOutcome.data]
    | some p => left; simp only [ReadOutcome.status?]

theorem mq_read_frame {T : Type} (self : Mqueue.NonBlockingMQ) (from_string : CxxString → T)
    (buffer : List Char) (sys : Mqueue.MqSystem) (d : T) :
    (self.read from_string buffer sys d).status? = some true ∨
    (self.read from_string buffer sys d).data = d := by
  cases hr : Mqueue.mq_receive self.mq_ Mqueue.MAX_MSG_SIZE_BYTES sys with
  | error e =>
    right
    simp only [Mqueue.NonBlockingMQ.read, Mqueue.NonBlockingMQ.receive, hr,
      stringFromBuffer_neg_one, ReadOutcome.data]
  | ok got =>
    obtain ⟨m, sys1⟩ := got
    simp only [Mqueue.NonBlockingMQ.read, Mqueue.NonBlockingMQ.receive, hr]
    cases stringFromBuffer (m ++ buffer.drop m.length) (toSizeT (m.length : Int)) with
    | error ex => right; simp only [ReadOutcome.data]
    | ok message => left; simp only [ReadOutcome.status?]

/-- A `read` that returns false leaves the output parameter as it was, on each of the
four transports (on the queue no call returns false, see `mq_read_status`). -/
theorem read_false_keeps_output {T : Type} (from_string : CxxString → T)
    (buffer : List Char) (d : T) :
    (∀ (self : Mqueue.NonBlockingMQ) (sys : Mqueue.MqSystem),
      (self.read from_string buffer sys d).status? = some false →
      (self.read from_string buffer sys d).data = d) ∧
    (∀ (self : Pipe.NonBlockingPipe) (sys : Pipe.PipeSystem),
      (self.read from_string buffer sys d).status? = some false →
      (self.read from_string buffer sys d).data = d) ∧
    (∀ (self : Socket.NonBlockingUnixSocket) (sys : Socket.SocketSystem),
      (self.read from_string buffer sys d).status? = some false →
      (self.read from_string buffer sys d).data = d) ∧
    (∀ (self : Shm.NonBlockingSHM) (sys : Shm.ShmSystem),
      (self.read from_string sys d).status? = some false →
      (self.read from_string sys d).data = d) := by
  refine ⟨fun self sys h => ?_, fun self sys h => ?_, fun self sys h => ?_,
    fun self sys h => ?_⟩
  · rcases mq_read_frame self from_string buffer sys d with ht | hd
    · rw [ht] at h; cases h
    · exact hd
  · rcases pipe_read_frame self from_string buffer sys d with ht | hd
    · rw [ht] at h; cases h
    · exact hd
  · rcases socket_read_frame self from_string buffer sys d with ht | hd
    · rw [ht] at h; cases h
    · exact hd
  · rcases shm_read_frame self from_string sys d with ht | hd
    · rw [ht] at h; cases h
    · exact hd

/-- Claim C10. Failure leaves the caller's state unchanged: on each of the four
transports and for every prior value `d` of the output parameter, a `read` that does
not return true leaves the output parameter holding `d`.  This covers every `read`
that returns false (empty, would-block, handle not open, any other failed receive)
and, on the queue, the `read` that is left by `std::length_error` after a failed
`mq_receive`: the exception is thrown before the decoded value is assigned. -/
theorem failing_read_keeps_output {T : Type} (from_string : CxxString → T)
    (buffer : List Char) (d : T) :
    (∀ (self : Mqueue.NonBlockingMQ) (sys : Mqueue.MqSystem),
      (self.read from_string buffer sys d).status? ≠ some true →
      (self.read from_string buffer sys d).data = d) ∧
    (∀ (self : Pipe.NonBlockingPipe) (sys : Pipe.PipeSystem),
      (self.read from_string buffer sys d).status? ≠ some true →
      (self.read from_string buffer sys d).data = d) ∧
    (∀ (self : Socket.NonBlockingUnixSocket) (sys : Socket.SocketSystem),
      (self.read from_string buffer sys d).status? ≠ some true →
      (self.read from_string buffer sys d).data = d) ∧
    (∀ (self : Shm.NonBlockingSHM) (sys : Shm.ShmSystem),
      (self.read from_string sys d).status? ≠ some true →
      (self.read from_string sys d).data = d) :=
  ⟨fun self sys h => (mq_read_frame self from_string buffer sys d).resolve_left h,
   fun self sys h => (pipe_read_frame self from_string buffer sys d).resolve_left h,
   fun self sys h => (socket_read_frame self from_string buffer sys d).resolve_left h,
   fun self sys h => (shm_read_frame self from_string sys d).resolve_left h⟩

/-- Witness of `failing_read_keeps_output`: prior value 7 and a read on the queue of
`test_mqueue.cpp` just constructed, on the empty FIFO of `test_pipe.cpp`, on the
server socket of `test_socket.cpp` with nothing received, and on a shared-memory
handle that is not open; the decoder is `from_string<int>`, one function in the four
headers. -/
theorem failing_read_keeps_output_witness :
    ((Mqueue.test_mq_publisher.read (Mqueue.from_string_int 0) []
          Mqueue.test_mq_publisher_system 7).status? ≠ some true ∧
      (Mqueue.test_mq_publisher.read (Mqueue.from_string_int 0) []
          Mqueue.test_mq_publisher_system 7).data = 7) ∧
    ((Pipe.test_pipe_handle.read (Mqueue.from_string_int 0) []
          Pipe.test_pipe_system 7).status? ≠ some true ∧
      (Pipe.test_pipe_handle.read (Mqueue.from_string_int 0) []
          Pipe.test_pipe_system 7).data = 7) ∧
    ((Socket.test_socket_server.read (Mqueue.from_string_int 0) []
          Socket.test_socket_system 7).status? ≠ some true ∧
      (Socket.test_socket_server.read (Mqueue.from_string_int 0) []
          Socket.test_socket_system 7).data = 7) ∧
    ((Shm.NonBlockingSHM.read { shmName_ := "/test_shm", shmFd_ := -1, shmPtr_ := none }
          (Mqueue.from_string_int 0) Shm.test_shm_system 7).status? ≠ some true ∧
      (Shm.NonBlockingSHM.read { shmName_ := "/test_shm", shmFd_ := -1, shmPtr_ := none }
          (Mqueue.from_string_int 0) Shm.test_shm_system 7).data = 7) :=
  have hmq : (Mqueue.test_mq_publisher.read (Mqueue.from_string_int 0) []
      Mqueue.test_mq_publisher_system 7).status? ≠ some true := by
    rw [Mqueue.mq_read_empty Mqueue.test_mq_publisher (Mqueue.from_string_int 0) []
      Mqueue.test_mq_publisher_system 7
      { attr := { mq_maxmsg := 10, mq_msgsize := 4096 }, msgs := [] }
      (by decide) (by decide) (by decide) rfl]
    simp [ReadOutcome.status?]
  have hpipe : (Pipe.test_pipe_handle.read (Mqueue.from_string_int 0) []
      Pipe.test_pipe_system 7).status? ≠ some true := by decide
  have hsock : (Socket.test_socket_server.read (Mqueue.from_string_int 0) []
      Socket.test_socket_system 7).status? ≠ some true := by decide
  have hshm : (Shm.NonBlockingSHM.read { shmName_ := "/test_shm", shmFd_ := -1, shmPtr_ := none }
      (Mqueue.from_string_int 0) Shm.test_shm_system 7).status? ≠ some true := by decide
  ⟨⟨hmq, (failing_read_keeps_output (Mqueue.from_string_int 0) [] 7).1 _ _ hmq⟩,
   ⟨hpipe, (failing_read_keeps_output (Mqueue.from_string_int 0) [] 7).2.1 _ _ hpipe⟩,
   ⟨hsock, (failing_read_keeps_output (Mqueue.from_string_int 0) [] 7).2.2.1 _ _ hsock⟩,
   ⟨hshm, (failing_read_keeps_output (Mqueue.from_string_int 0) [] 7).2.2.2 _ _ hshm⟩⟩

end PosixIpc

namespace PosixIpc
namespace Mqueue

theorem mq_new_eq (queueName : String) (sys0 : MqSystem) :
    NonBlockingMQ.new queueName sys0
      = some ({ queueName_ := queueName, mq_ := (sys0.next : Int) },
          { names := (queueName, sys0.next) :: unlinkName sys0.names queueName,
            queues := (setObj sys0.queues sys0.next
              (some { attr := { mq_maxmsg := MAX_NUM_MSGS, mq_msgsize := MAX_MSG_SIZE_BYTES },
                      msgs := [] })),
            next := sys0.next + 1 }) := by
  have hlook : (mq_unlink queueName sys0).names.lookup queueName = none :=
    lookup_unlinkName sys0.names queueName
  have hne : ¬ ((sys0.next : Int) = -1) := by omega
  unfold NonBlockingMQ.new mq_open
  simp only [hlook, if_neg hne]
  rfl

theorem mq_write_frame {T : Type} (self : NonBlockingMQ) (to_string : T → CxxString) (v : T)
    (sys : MqSystem) :
    (self.write to_string v sys).sys.next = sys.next ∧
    (self.write to_string v sys).sys.names = sys.names ∧
    ∀ i : Nat, i ≠ self.mq_.toNat → (self.write to_string v sys).sys.queues i = sys.queues i := by
  cases hs : mq_send self.mq_ (c_str (to_string v)) sys with
  | error e =>
    have hw : (self.write to_string v sys).sys = sys := by
      unfold NonBlockingMQ.write
      simp only [hs]
      split_ifs <;> rfl
    rw [hw]
    exact ⟨rfl, rfl, fun _ _ => rfl⟩
  | ok sys1 =>
    have hw : (self.write to_string v sys).sys = sys1 := by
      unfold NonBlockingMQ.write
      simp only [hs]
    rw [hw]
    unfold mq_send at hs
    split_ifs at hs
    split at hs
    · cases hs
    · split_ifs at hs
      cases hs
      refine ⟨rfl, rfl, ?_⟩
      intro i hi
      simp only [setObj, if_neg hi]

theorem mq_writeAll_frame {T : Type} (self : NonBlockingMQ) (to_string : T → CxxString) :
    ∀ (values : List T) (sys : MqSystem),
      (self.writeAll to_string values sys).2.next = sys.next ∧
      (self.writeAll to_string values sys).2.names = sys.names ∧
      ∀ i : Nat, i ≠ self.mq_.toNat →
        (self.writeAll to_string values sys).2.queues i = sys.queues i := by
  intro values
  induction values with
  | nil => intro sys; exact ⟨rfl, rfl, fun _ _ => rfl⟩
  | cons v vs ih =>
    intro sys
    obtain ⟨h1, h2, h3⟩ := mq_write_frame self to_string v sys
    obtain ⟨k1, k2, k3⟩ := ih (self.write to_string v sys).sys
    simp only [NonBlockingMQ.writeAll]
    exact ⟨k1.trans h1, k2.trans h2, fun i hi => (k3 i hi).trans (h3 i hi)⟩

end Mqueue
end PosixIpc

namespace PosixIpc
namespace Mqueue

theorem mq_receive_empty (mqdes : Int) (sys : MqSystem) (q : MessageQueue)
    (hfd : ¬ mqdes < 0) (hq : sys.queues mqdes.toNat = some q)
    (hsize : q.attr.mq_msgsize ≤ MAX_MSG_SIZE_BYTES) (hempty : q.msgs = []) :
    mq_receive mqdes MAX_MSG_SIZE_BYTES sys = Except.error Errno.EAGAIN := by
  unfold mq_receive
  simp only [if_neg hfd, hq, if_neg (not_lt.mpr hsize), hempty]

theorem mq_second_handle {T : Type} (a : NonBlockingMQ) (to_string : T → CxxString)
    (from_string : CxxString → T) (queueName : String) (s : MqSystem) (after : List T)
    (buffer : List Char) (d : T) (hne : s.next ≠ a.mq_.toNat) :
    ∃ sys2 : MqSystem,
      NonBlockingMQ.new queueName s
        = some ({ queueName_ := queueName, mq_ := (s.next : Int) }, sys2) ∧
      sys2.names.lookup queueName = some s.next ∧
      sys2.queues a.mq_.toNat = s.queues a.mq_.toNat ∧
      (a.writeAll to_string after sys2).2.queues s.next
        = some { attr := { mq_maxmsg := MAX_NUM_MSGS, mq_msgsize := MAX_MSG_SIZE_BYTES },
                 msgs := [] } ∧
      mq_receive (s.next : Int) MAX_MSG_SIZE_BYTES (a.writeAll to_string after sys2).2
        = Except.error Errno.EAGAIN ∧
      NonBlockingMQ.read { queueName_ := queueName, mq_ := (s.next : Int) } from_string buffer
          (a.writeAll to_string after sys2).2 d
        = ReadOutcome.threw CxxException.length_error d
            ["Queue is empty, no message received."] (a.writeAll to_string after sys2).2 := by
  refine ⟨_, mq_new_eq queueName s, ?_, ?_, ?_⟩
  · simp [List.lookup_cons]
  · simp only [setObj, if_neg hne.symm]
  · have hq := (mq_writeAll_frame a to_string after
      { names := (queueName, s.next) :: unlinkName s.names queueName,
        queues := (setObj s.queues s.next
          (some { attr := { mq_maxmsg := MAX_NUM_MSGS, mq_msgsize := MAX_MSG_SIZE_BYTES },
                  msgs := [] })),
        next := s.next + 1 }).2.2 s.next hne
    simp only [setObj, if_true] at hq
    have hfd : ¬ ((s.next : Int) < 0) := by omega
    refine ⟨hq, ?_, ?_⟩
    · exact mq_receive_empty _ _ _ hfd (by simpa using hq) (le_refl _) rfl
    · exact mq_read_empty _ from_string buffer _ d _ hfd (by simpa using hq) (le_refl _) rfl

/-- Claim C11, evaluated on the code. A second handle constructed on the name of a
first one (which may have written before): the constructor unlinks the name and binds
it to a new, empty queue with the next descriptor, and the first handle's queue is
left as it was.  Whatever the first handle writes afterwards stays out of the second
handle's queue, which is still empty, so `mq_receive` on the second handle fails with
`EAGAIN`.  Its `read` then prints "Queue is empty, no message received." and, instead
of returning false, is left by `std::length_error` with the output parameter as it
was. -/
theorem mq_second_constructor_purges {T : Type} (to_string : T → CxxString)
    (from_string : CxxString → T) (queueName : String) (sys0 : MqSystem)
    (before after : List T) (buffer : List Char) (d : T) :
    ∃ (a : NonBlockingMQ) (sys1 : MqSystem) (b : NonBlockingMQ) (sys2 : MqSystem),
      NonBlockingMQ.new queueName sys0 = some (a, sys1) ∧
      NonBlockingMQ.new queueName (a.writeAll to_string before sys1).2 = some (b, sys2) ∧
      b.mq_ = a.mq_ + 1 ∧
      sys2.names.lookup queueName = some b.mq_.toNat ∧
      sys2.queues a.mq_.toNat = (a.writeAll to_string before sys1).2.queues a.mq_.toNat ∧
      (a.writeAll to_string after sys2).2.queues b.mq_.toNat
        = some { attr := { mq_maxmsg := MAX_NUM_MSGS, mq_msgsize := MAX_MSG_SIZE_BYTES },
                 msgs := [] } ∧
      mq_receive b.mq_ MAX_MSG_SIZE_BYTES (a.writeAll to_string after sys2).2
        = Except.error Errno.EAGAIN ∧
      b.read from_string buffer (a.writeAll to_string after sys2).2 d
        = ReadOutcome.threw CxxException.length_error d
            ["Queue is empty, no message received."] (a.writeAll to_string after sys2).2 := by
  have hnext := (mq_writeAll_frame { queueName_ := queueName, mq_ := (sys0.next : Int) }
    to_string before
    { names := (queueName, sys0.next) :: unlinkName sys0.names queueName,
      queues := (setObj sys0.queues sys0.next
        (some { attr := { mq_maxmsg := MAX_NUM_MSGS, mq_msgsize := MAX_MSG_SIZE_BYTES },
                msgs := [] })),
      next := sys0.next + 1 }).1
  simp only at hnext
  obtain ⟨sys2, hnew, hname, hkeep, hq, hrecv, hread⟩ :=
    mq_second_handle { queueName_ := queueName, mq_ := (sys0.next : Int) } to_string
      from_string queueName
      (NonBlockingMQ.writeAll { queueName_ := queueName, mq_ := (sys0.next : Int) } to_string
        before
        { names := (queueName, sys0.next) :: unlinkName sys0.names queueName,
          queues := (setObj sys0.queues sys0.next
            (some { attr := { mq_maxmsg := MAX_NUM_MSGS, mq_msgsize := MAX_MSG_SIZE_BYTES },
                    msgs := [] })),
          next := sys0.next + 1 }).2
      after buffer d (by rw [hnext]; simp)
  refine ⟨_, _, _, sys2, mq_new_eq queueName sys0, hnew, ?_, ?_, hkeep, ?_, hrecv, hread⟩
  · simp only [hnext]
    push_cast
    rfl
  · simpa using hname
  · simpa using hq

end Mqueue
end PosixIpc

namespace PosixIpc
namespace Mqueue

/-- The run of `main` in `test_mqueue.cpp`: both constructors succeed, the publisher's
write of 42 returns true and puts the message in the publisher's queue, the
subscriber's queue stays empty, and the subscriber's read prints "Queue is empty, no
message received." and is left by `std::length_error`. -/
theorem test_mqueue_main :
    NonBlockingMQ.new "my_mq" test_mq_publisher_system
      = some (test_mq_subscriber, test_mq_system) ∧
    (test_mq_publisher.write to_string_int 42 test_mq_system).status = true ∧
    Option.map MessageQueue.msgs
        ((test_mq_publisher.write to_string_int 42 test_mq_system).sys.queues 0)
      = some [c_str "42".toList] ∧
    Option.map MessageQueue.msgs
        ((test_mq_publisher.write to_string_int 42 test_mq_system).sys.queues 1)
      = some [] ∧
    (test_mq_subscriber.read (from_string_int 0) []
        (test_mq_publisher.write to_string_int 42 test_mq_system).sys 7).status? = none ∧
    (test_mq_subscriber.read (from_string_int 0) []
        (test_mq_publisher.write to_string_int 42 test_mq_system).sys 7).data = 7 := by
  have hq : (test_mq_publisher.write to_string_int 42 test_mq_system).sys.queues
      test_mq_subscriber.mq_.toNat
      = some { attr := { mq_maxmsg := MAX_NUM_MSGS, mq_msgsize := MAX_MSG_SIZE_BYTES },
               msgs := [] } := by decide
  refine ⟨rfl, by decide, by decide, by decide, ?_, ?_⟩
  · rw [mq_read_empty test_mq_subscriber (from_string_int 0) [] _ 7 _ (by decide) hq
      (le_refl _) rfl]
    rfl
  · rw [mq_read_empty test_mq_subscriber (from_string_int 0) [] _ 7 _ (by decide) hq
      (le_refl _) rfl]
    rfl

end Mqueue
end PosixIpc
